import Mathlib

/-! AUTH: authentication core (`auth_system/server`)

A shallow embedding of `auth.cpp`, of the use cases of `server.cpp` and of the parts of
`database.cpp` and `database.h` they call, with the properties of password hashing, signed
tokens, the brute-force guard, login, registration, password reset, subscriptions and
license keys proved after it.

Conventions of the embedding:

* `std::string` is `List Char` (`Str`);
* `std::time_t` is `Int`; `std::time(nullptr)` is an explicit argument `now`, the same for
  every call within one operation; an `int` product is wrapped to 32 bits (`wrapInt32`);
* the OpenSSL primitives (`HMAC`, `PKCS5_PBKDF2_HMAC`) are fields of a `Crypto` record and
  `RAND_bytes` output is an explicit argument, so every statement holds for all of them;
* a C++ exception leaving a function is `Except.error`;
* a member function that changes the database returns the state afterwards next to its result.
-/

namespace AuthSystem

/-- A `std::string`: a sequence of characters. -/
abbrev Str := List Char

/-- An `unsigned char buf[n]` filled by a library call. -/
abbrev Bytes (n : Nat) := Fin n → Fin 256

/-! ## Library primitives used by `auth.cpp` -/

/-- The OpenSSL functions called by `AuthManager`. `HMAC key data` is
`HMAC(EVP_sha256(), key, data)`; `PKCS5_PBKDF2_HMAC password salt iter` is the 32-byte output of
the call with `EVP_sha256()`. -/
structure Crypto where
  HMAC : Str → Str → Bytes 32
  PKCS5_PBKDF2_HMAC : Str → Str → Nat → Bytes 32

/-- One lower-case hexadecimal digit, `d < 16`. -/
def hexDigit (d : Nat) : Char :=
  if d < 10 then Char.ofNat (48 + d) else Char.ofNat (87 + d)

/-- The text `ss << std::hex << std::setw(2) << std::setfill('0') << static_cast<int>(b)` appends
for an `unsigned char b`: two lower-case hex digits. -/
def hexByte (b : Fin 256) : Str :=
  [hexDigit (b.val / 16), hexDigit (b.val % 16)]

/-- The loop `for (i = 0; i < n; i++) ss << hex << setw(2) << setfill('0') << (int)buf[i]`. -/
def hexEncode {n : Nat} (buf : Bytes n) : Str :=
  (List.ofFn buf).flatMap hexByte

/-- Digits of `n` in base 10 pushed in front of `acc`, most significant first. -/
def decimalAux : Nat → Nat → Str → Str
  | 0, _, acc => acc
  | fuel + 1, n, acc =>
    let acc' := Char.ofNat (48 + n % 10) :: acc
    if n / 10 = 0 then acc' else decimalAux fuel (n / 10) acc'

/-- Decimal rendering of a natural number (`0` is `"0"`). -/
def decimalNat (n : Nat) : Str := decimalAux (n + 1) n []

/-- The text `ss << t` appends for a `std::time_t t` (a signed integer, default formatting). -/
def decimal (t : Int) : Str :=
  if t < 0 then '-' :: decimalNat t.natAbs else decimalNat t.natAbs

deriving instance DecidableEq for Except

/-- The exceptions `std::stoll` can throw. -/
inductive StollError where
  | invalid_argument
  | out_of_range
  deriving DecidableEq, Repr

/-- The characters `isspace` accepts in the C locale. -/
def isSpace (c : Char) : Bool :=
  c = ' ' || c = '\t' || c = '\n' || c = Char.ofNat 11 || c = Char.ofNat 12 || c = '\r'

/-- The value of a run of decimal digits. -/
def digitsValue (ds : Str) : Nat :=
  ds.foldl (fun a c => 10 * a + (c.toNat - 48)) 0

/-- The function `std::stoll(str)` (base 10, no position output): skip leading white space, read an
optional sign and the longest run of digits, ignore what follows. No digit at all throws
`std::invalid_argument`; a value outside the `long long` range throws `std::out_of_range`. -/
def stoll (str : Str) : Except StollError Int :=
  let s1 := str.dropWhile isSpace
  let neg := s1.head? = some '-'
  let s2 := if s1.head? = some '-' ∨ s1.head? = some '+' then s1.tail else s1
  let ds := s2.takeWhile Char.isDigit
  if ds.isEmpty then Except.error StollError.invalid_argument
  else
    let v : Int := if neg then -(digitsValue ds : Int) else (digitsValue ds : Int)
    if v < -(2 : Int) ^ 63 ∨ (2 : Int) ^ 63 - 1 < v then Except.error StollError.out_of_range
    else Except.ok v

/-- Characters up to the first `delim` and what follows it; `none` when no `delim` was found. -/
def splitDelim : Str → Char → Str × Option Str
  | [], _ => ([], none)
  | c :: cs, delim =>
    if c = delim then ([], some cs)
    else ((c :: (splitDelim cs delim).1), (splitDelim cs delim).2)

/-- The call `std::getline(ss, field, delim)` on a `std::stringstream`. The stream is `some rest`
while it is good and `none` once a read has reached the end of the buffer; a read on a stream that
is not good leaves the (empty) field empty. Returns the field and the stream afterwards. -/
def getline (ss : Option Str) (delim : Char) : Str × Option Str :=
  match ss with
  | none => ([], none)
  | some buf => splitDelim buf delim

/-- Position of the first occurrence, `std::string::find(ch)`; `none` is `npos`. -/
def find : Str → Char → Option Nat
  | [], _ => none
  | c :: cs, ch => if c = ch then some 0 else (find cs ch).map (· + 1)

/-- The prefix `str.substr(0, n)`. -/
def substr0 (str : Str) (n : Nat) : Str := str.take n

/-! ## `database.h` / `database.cpp` -/

/-- The C++ `struct UserData`. -/
structure UserData where
  id : Int
  username : Str
  passwordHash : Str
  email : Str
  hwid : Str
  registrationDate : Int
  lastLoginDate : Int
  subscriptionEnd : Int
  isBanned : Bool
  banReason : Str
  deriving DecidableEq, Repr

/-- The C++ `struct LogEntry`. -/
structure LogEntry where
  id : Int
  username : Str
  action : Str
  ip : Str
  hwid : Str
  timestamp : Int
  success : Bool
  deriving DecidableEq, Repr

/-- The two tables of the SQLite database, rows in insertion order. -/
structure Database where
  users : List UserData
  logs : List LogEntry
  deriving Repr

/-- The value `UserData user; user.id = 0;` a lookup starts from. Only `id` is read by callers
when no row was found. -/
def UserData.notFound : UserData :=
  { id := 0, username := [], passwordHash := [], email := [], hwid := [],
    registrationDate := 0, lastLoginDate := 0, subscriptionEnd := 0,
    isBanned := false, banReason := [] }

/-- The query `SELECT ... FROM users WHERE username = '...'` of `Database::getUserByUsername`:
the first matching row, else the record with `id = 0`. -/
def Database.getUserByUsername (db : Database) (username : Str) : UserData :=
  match db.users.find? (fun u => u.username = username) with
  | some u => u
  | none => UserData.notFound

/-- Insertion of a row into a list ordered by `timestamp` descending. -/
def insertByTimestampDesc (l : LogEntry) : List LogEntry → List LogEntry
  | [] => [l]
  | x :: xs => if x.timestamp < l.timestamp then l :: x :: xs
               else x :: insertByTimestampDesc l xs

/-- The clause `ORDER BY timestamp DESC`. Rows with equal timestamps come out in an order SQLite
does not fix; here the later-inserted row comes first. -/
def orderByTimestampDesc (rows : List LogEntry) : List LogEntry :=
  rows.foldr insertByTimestampDesc []

/-- The query of `Database::getUserLogs(username, limit)`:
`SELECT ... FROM logs WHERE username = '...' ORDER BY timestamp DESC LIMIT limit`. -/
def Database.getUserLogs (db : Database) (username : Str) (limit : Nat) : List LogEntry :=
  (orderByTimestampDesc (db.logs.filter (fun l => l.username = username))).take limit

/-! ## `auth.cpp` -/

/-- The state of an `AuthManager`: its database and the signing key made in the constructor. -/
structure AuthManager where
  m_db : Database
  m_secretKey : Str
  deriving Repr

/-- The function `AuthManager::generateSalt`, given the 16 bytes `RAND_bytes` produced. -/
def AuthManager.generateSalt (randomBytes : Bytes 16) : Str :=
  hexEncode randomBytes

/-- The function `AuthManager::signData`: hex of the HMAC-SHA256 of `data` under the secret key. -/
def AuthManager.signData (c : Crypto) (am : AuthManager) (data : Str) : Str :=
  hexEncode (c.HMAC am.m_secretKey data)

/-- The function `AuthManager::hashPassword(password, salt)`. `randomBytes` is what `RAND_bytes`
yields if `generateSalt` is called. -/
def AuthManager.hashPassword (c : Crypto) (randomBytes : Bytes 16) (password salt : Str) : Str :=
  let saltToUse := if salt.isEmpty then AuthManager.generateSalt randomBytes else salt
  let hash := c.PKCS5_PBKDF2_HMAC password saltToUse 10000
  saltToUse ++ ['$'] ++ hexEncode hash

/-- The function `AuthManager::verifyPassword(password, storedHash)`. -/
def AuthManager.verifyPassword (c : Crypto) (randomBytes : Bytes 16) (password storedHash : Str) :
    Bool :=
  match find storedHash '$' with
  | none => false
  | some delimiterPos =>
    let salt := substr0 storedHash delimiterPos
    let computedHash := AuthManager.hashPassword c randomBytes password salt
    computedHash == storedHash

/-- The function `AuthManager::generateToken(username, hwid)` called at time `now`. -/
def AuthManager.generateToken (c : Crypto) (am : AuthManager) (now : Int) (username hwid : Str) :
    Str :=
  let expiry := now + 86400
  let tokenData := username ++ ['|'] ++ hwid ++ ['|'] ++ decimal expiry
  let signature := AuthManager.signData c am tokenData
  tokenData ++ ['|'] ++ signature

/-- The function `AuthManager::validateToken(token)` called at time `now`. `Except.error` is the
exception `std::stoll` throws, which the function does not catch. -/
def AuthManager.validateToken (c : Crypto) (am : AuthManager) (now : Int) (token : Str) :
    Except StollError Bool :=
  let ss : Option Str := some token
  let (username, ss) := getline ss '|'
  let (hwid, ss) := getline ss '|'
  let (expiryStr, ss) := getline ss '|'
  let (signature, _) := getline ss '|'
  if username.isEmpty || hwid.isEmpty || expiryStr.isEmpty || signature.isEmpty then
    Except.ok false
  else
    match stoll expiryStr with
    | Except.error e => Except.error e
    | Except.ok expiry =>
      if now > expiry then Except.ok false
      else
        let tokenData := username ++ ['|'] ++ hwid ++ ['|'] ++ expiryStr
        let expectedSignature := AuthManager.signData c am tokenData
        if signature ≠ expectedSignature then Except.ok false
        else
          let user := am.m_db.getUserByUsername username
          if user.id = 0 then Except.ok false
          else if user.isBanned then Except.ok false
          else if !user.hwid.isEmpty && user.hwid ≠ hwid then Except.ok false
          else Except.ok true

/-- The function `AuthManager::generatePasswordResetToken(username)` called at time `now`. -/
def AuthManager.generatePasswordResetToken (c : Crypto) (am : AuthManager) (now : Int)
    (username : Str) : Str :=
  let expiry := now + 3600
  let tokenData := username ++ ['|'] ++ decimal expiry
  let signature := AuthManager.signData c am tokenData
  tokenData ++ ['|'] ++ signature

/-- The function `AuthManager::validatePasswordResetToken(token)` called at time `now`. -/
def AuthManager.validatePasswordResetToken (c : Crypto) (am : AuthManager) (now : Int)
    (token : Str) : Except StollError Bool :=
  let ss : Option Str := some token
  let (username, ss) := getline ss '|'
  let (expiryStr, ss) := getline ss '|'
  let (signature, _) := getline ss '|'
  if username.isEmpty || expiryStr.isEmpty || signature.isEmpty then
    Except.ok false
  else
    match stoll expiryStr with
    | Except.error e => Except.error e
    | Except.ok expiry =>
      if now > expiry then Except.ok false
      else
        let tokenData := username ++ ['|'] ++ expiryStr
        let expectedSignature := AuthManager.signData c am tokenData
        Except.ok (signature == expectedSignature)

/-- The body of the loop in `checkBruteForce`: one more failed attempt when the record is a
failed `login` less than 600 seconds old. -/
def bruteForceStep (currentTime : Int) (failedAttempts : Int) (log : LogEntry) : Int :=
  if log.action = ['l', 'o', 'g', 'i', 'n'] && !log.success && (currentTime - log.timestamp) < 600
  then failedAttempts + 1 else failedAttempts

/-- The function `AuthManager::checkBruteForce(username, ip)` called at time `now`. -/
def AuthManager.checkBruteForce (am : AuthManager) (now : Int) (username _ip : Str) : Bool :=
  let logs := am.m_db.getUserLogs username 10
  let failedAttempts := logs.foldl (bruteForceStep now) 0
  decide (failedAttempts ≥ 5)

/-! ## More of `database.h` / `database.cpp`

The tables are lists of rows. Every SQL statement is taken to execute (`SQLITE_OK`), except an
`INSERT` into `users` that would break a `UNIQUE` column of the schema. -/

/-- The function `getKeyHWID(key)` of `database.h`: the mock hwid of a key. -/
def getKeyHWID (key : Str) : Str :=
  if find key 'A' ≠ none then ['H', 'W', 'I', 'D', '-', '1', '2', '3', '4', '5'] else []

/-- The function `isHWIDLocked(key, hwid)` of `database.h`. -/
def isHWIDLocked (key hwid : Str) : Bool :=
  let storedHWID := getKeyHWID key
  if storedHWID.isEmpty then false
  else storedHWID ≠ hwid

/-- The query `SELECT ... FROM users WHERE email = '...'` of `Database::getUserByEmail`. -/
def Database.getUserByEmail (db : Database) (email : Str) : UserData :=
  match db.users.find? (fun u => u.email = email) with
  | some u => u
  | none => UserData.notFound

/-- The id an `INTEGER PRIMARY KEY AUTOINCREMENT` column gives a new row: above every id of the
table, and at least 1. -/
def nextId (ids : List Int) : Int := ids.foldl max 0 + 1

/-- The function `Database::addUser`: the `INSERT` fails when the username or the e-mail is
already in the table (both columns are `UNIQUE`), else the row is appended with a fresh id. -/
def Database.addUser (db : Database) (user : UserData) : Bool × Database :=
  if db.users.any (fun u => u.username = user.username || u.email = user.email) then (false, db)
  else
    (true, { db with users := db.users ++ [{ user with id := nextId (db.users.map (·.id)) }] })

/-- The function `Database::updateUser`: `UPDATE users SET password_hash, email, hwid,
last_login_date, subscription_end, is_banned, ban_reason WHERE id = user.id`. -/
def Database.updateUser (db : Database) (user : UserData) : Bool × Database :=
  (true, { db with users := db.users.map (fun u =>
    if u.id = user.id then
      { u with passwordHash := user.passwordHash, email := user.email, hwid := user.hwid,
               lastLoginDate := user.lastLoginDate, subscriptionEnd := user.subscriptionEnd,
               isBanned := user.isBanned, banReason := user.banReason }
    else u) })

/-- The function `Database::updateHWID`: `UPDATE users SET hwid = ... WHERE username = ...`. -/
def Database.updateHWID (db : Database) (username hwid : Str) : Bool × Database :=
  (true, { db with users := db.users.map (fun u =>
    if u.username = username then { u with hwid := hwid } else u) })

/-- The function `Database::updateLastLogin` called at time `now`:
`UPDATE users SET last_login_date = now WHERE username = ...`. -/
def Database.updateLastLogin (db : Database) (now : Int) (username : Str) : Bool × Database :=
  (true, { db with users := db.users.map (fun u =>
    if u.username = username then { u with lastLoginDate := now } else u) })

/-- The function `Database::addLog`: the row is appended to `logs` with a fresh id. -/
def Database.addLog (db : Database) (log : LogEntry) : Bool × Database :=
  (true, { db with logs := db.logs ++ [{ log with id := nextId (db.logs.map (·.id)) }] })

/-! ## More of `auth.cpp` -/

/-- Modelled from the spec: `AuthManager::logLoginAttempt(username, ip, hwid, success)` is
declared in `auth.h` and called by `loginUser`, but its definition is not among the sources.
Following the spec (a login audit record holds username, action kind, source address, hwid,
timestamp and success flag, and is appended once per login attempt) and the action `login` that
`checkBruteForce` counts, it appends one record through `Database::addLog`. -/
def AuthManager.logLoginAttempt (am : AuthManager) (now : Int) (username ip hwid : Str)
    (success : Bool) : Bool × AuthManager :=
  let log : LogEntry :=
    { id := 0, username := username, action := ['l', 'o', 'g', 'i', 'n'], ip := ip, hwid := hwid,
      timestamp := now, success := success }
  ((am.m_db.addLog log).1, { am with m_db := (am.m_db.addLog log).2 })

/-- The function `AuthManager::resetPassword(token, newPassword)` called at time `now`; the
result is the return value and the manager with the database afterwards. `Except.error` is the
exception of `std::stoll` leaving `validatePasswordResetToken`. -/
def AuthManager.resetPassword (c : Crypto) (randomBytes : Bytes 16) (am : AuthManager) (now : Int)
    (token newPassword : Str) : Except StollError (Bool × AuthManager) :=
  match AuthManager.validatePasswordResetToken c am now token with
  | Except.error e => Except.error e
  | Except.ok valid =>
    if !valid then Except.ok (false, am)
    else
      let ss : Option Str := some token
      let (username, ss) := getline ss '|'
      let (_expiryStr, ss) := getline ss '|'
      let (_signature, _) := getline ss '|'
      let user := am.m_db.getUserByUsername username
      if user.id = 0 then Except.ok (false, am)
      else
        let user := { user with passwordHash := AuthManager.hashPassword c randomBytes newPassword [] }
        Except.ok ((am.m_db.updateUser user).1, { am with m_db := (am.m_db.updateUser user).2 })

/-! ## `server.cpp` -/

/-- The string `chars` of `generateRandomKey`. -/
def licenseKeyChars : Str := "ABCDEFGHIJKLMNOPQRSTUVWXYZ0123456789".toList

/-- The function `generateRandomKey`. `draws k` is the `k`-th value `distribution(generator)`
returns, an index between 0 and `chars.size() - 1 = 35`, so `chars[...]` is always within the
string and the default of `getD` is never taken. -/
def generateRandomKey (draws : Fin 16 → Fin 36) : Str :=
  (List.finRange 4).flatMap (fun i =>
    (List.finRange 4).map (fun j =>
      licenseKeyChars.getD (draws ⟨4 * i.val + j.val, by omega⟩).val 'A')
    ++ (if i.val < 3 then ['-'] else []))

/-- The state of an `AuthServer`: its `AuthManager`, which holds the key and points to the
server's database. -/
structure AuthServer where
  m_authManager : AuthManager
  deriving Repr

/-- The member `m_database` of an `AuthServer`. -/
def AuthServer.m_database (s : AuthServer) : Database := s.m_authManager.m_db

/-- The server after a write to its database. -/
def AuthServer.withDatabase (s : AuthServer) (db : Database) : AuthServer :=
  { m_authManager := { s.m_authManager with m_db := db } }

/-- The function `AuthServer::generateLicenseKeys(game, duration, quantity)`. `draws i` are the
random draws of the `i`-th call of `generateRandomKey`. -/
def AuthServer.generateLicenseKeys (draws : Nat → Fin 16 → Fin 36) (_game _duration : Str)
    (quantity : Int) : List Str :=
  (List.range quantity.toNat).foldl (fun keys i => keys ++ [generateRandomKey (draws i)]) []

/-- The function `AuthServer::activateLicenseKey(key, username, hwid)`. -/
def AuthServer.activateLicenseKey (_s : AuthServer) (_key _username _hwid : Str) : Bool := true

/-- The function `AuthServer::resetKeyHWID(key)`. -/
def AuthServer.resetKeyHWID (_s : AuthServer) (_key : Str) : Bool := true

/-- The function `AuthServer::banKey(key, reason)`. -/
def AuthServer.banKey (_s : AuthServer) (_key _reason : Str) : Bool := true

/-- The call `m_authManager->logLoginAttempt(username, "unknown", hwid, success)`. -/
def AuthServer.logAttempt (s : AuthServer) (now : Int) (username hwid : Str) (success : Bool) :
    AuthServer :=
  { m_authManager := (s.m_authManager.logLoginAttempt now username
      ['u', 'n', 'k', 'n', 'o', 'w', 'n'] hwid success).2 }

/-- The function `AuthServer::registerUser(username, password, email, hwid)` called at time
`now`. The call `hashPassword(password)` is the call with the empty salt. The result is the
return value and the server afterwards. -/
def AuthServer.registerUser (c : Crypto) (randomBytes : Bytes 16) (s : AuthServer) (now : Int)
    (username password email hwid : Str) : Bool × AuthServer :=
  let existingUser := s.m_database.getUserByUsername username
  if existingUser.id ≠ 0 then (false, s)
  else
    let existingUser := s.m_database.getUserByEmail email
    if existingUser.id ≠ 0 then (false, s)
    else
      let newUser : UserData :=
        { id := 0, username := username,
          passwordHash := AuthManager.hashPassword c randomBytes password [],
          email := email, hwid := hwid, registrationDate := now, lastLoginDate := 0,
          subscriptionEnd := 0, isBanned := false, banReason := [] }
      if !(s.m_database.addUser newUser).1 then (false, s)
      else (true, s.withDatabase (s.m_database.addUser newUser).2)

/-- The function `AuthServer::loginUser(username, password, hwid, token)` called at time `now`.
`token` is the value of the output parameter before the call; the result is the return value,
the value of `token` afterwards and the server afterwards. -/
def AuthServer.loginUser (c : Crypto) (randomBytes : Bytes 16) (s : AuthServer) (now : Int)
    (username password hwid token : Str) : Bool × Str × AuthServer :=
  let user := s.m_database.getUserByUsername username
  if user.id = 0 then
    (false, token, s.logAttempt now username hwid false)
  else if user.isBanned then
    (false, token, s.logAttempt now username hwid false)
  else if !AuthManager.verifyPassword c randomBytes password user.passwordHash then
    (false, token, s.logAttempt now username hwid false)
  else if user.subscriptionEnd < now && user.subscriptionEnd ≠ 0 then
    (false, token, s.logAttempt now username hwid false)
  else if !user.hwid.isEmpty && user.hwid ≠ hwid then
    (false, token, s.logAttempt now username hwid false)
  else
    let s1 := if user.hwid.isEmpty then s.withDatabase (s.m_database.updateHWID username hwid).2
              else s
    let s2 := s1.withDatabase (s1.m_database.updateLastLogin now username).2
    let token' := AuthManager.generateToken c s2.m_authManager now username hwid
    let s3 := s2.logAttempt now username hwid true
    (true, token', s3)

/-- Modelled from the spec: `AuthManager::generateResetToken(email)` is declared in `auth.h`
and called by `AuthServer::resetPassword`, but no source file defines it
(`AuthManager::generatePasswordResetToken(username)`, which `auth.cpp` defines, is declared in
no header and called nowhere). The spec has `requestPasswordReset(email)` issue a reset token for the account
of that e-mail address, a reset token being `username|expiryEpoch|signature` with a lifetime of
one hour and naming the account whose password it changes. The model is therefore the reset
token `generatePasswordResetToken` builds for the username of the account stored under
`email`. -/
def AuthManager.generateResetToken (c : Crypto) (am : AuthManager) (now : Int) (email : Str) :
    Str :=
  AuthManager.generatePasswordResetToken c am now (am.m_db.getUserByEmail email).username

/-- The function `AuthServer::resetPassword(email)` called at time `now`. The result is the
return value and the reset token the function prints, if any. -/
def AuthServer.resetPassword (c : Crypto) (s : AuthServer) (now : Int) (email : Str) :
    Bool × Option Str :=
  let user := s.m_database.getUserByEmail email
  if user.id = 0 then (false, none)
  else
    let resetToken := AuthManager.generateResetToken c s.m_authManager now email
    (true, some resetToken)

/-! ## `Database::updateSubscription` -/

/-- The value of an expression of type `int` (32 bits) whose exact value is `x`. Inside the
range it is `x`; outside, the signed overflow is undefined behaviour in C++ and is taken here as
the two's-complement wrap-around of the machine multiplication. -/
def wrapInt32 (x : Int) : Int := (x + 2 ^ 31) % 2 ^ 32 - 2 ^ 31

/-- The function `Database::updateSubscription(username, days)` called at time `now`, `days`
being an `int`. The product `days * 86400` is computed in `int` before it is added to the
`time_t` base. -/
def Database.updateSubscription (db : Database) (now : Int) (username : Str) (days : Int) :
    Bool × Database :=
  let user := db.getUserByUsername username
  if user.id = 0 then (false, db)
  else
    let newEnd : Int :=
      if user.subscriptionEnd < now then now + wrapInt32 (days * 86400)
      else user.subscriptionEnd + wrapInt32 (days * 86400)
    (true, { db with users := db.users.map (fun u =>
      if u.username = username then { u with subscriptionEnd := newEnd } else u) })

deriving instance DecidableEq for Database
deriving instance DecidableEq for AuthManager
deriving instance DecidableEq for AuthServer

/-! ## Auxiliary notions used in the statements -/

/-- Lower-case hexadecimal characters. -/
def isLowerHex (ch : Char) : Bool :=
  ('0' ≤ ch && ch ≤ '9') || ('a' ≤ ch && ch ≤ 'f')

/-- The four fields `validateToken` reads from a token with its four `getline` calls:
username, hwid, expiry text, signature. -/
def sessionFields (token : Str) : Str × Str × Str × Str :=
  let r1 := getline (some token) '|'
  let r2 := getline r1.2 '|'
  let r3 := getline r2.2 '|'
  let r4 := getline r3.2 '|'
  (r1.1, r2.1, r3.1, r4.1)

/-- The three fields `validatePasswordResetToken` reads from a token: username, expiry text,
signature. -/
def resetFields (token : Str) : Str × Str × Str :=
  let r1 := getline (some token) '|'
  let r2 := getline r1.2 '|'
  let r3 := getline r2.2 '|'
  (r1.1, r2.1, r3.1)

/-- The string `a|b`. -/
def join2 (a b : Str) : Str := a ++ '|' :: b

/-- The string `a|b|c`. -/
def join3 (a b c : Str) : Str := a ++ '|' :: (b ++ '|' :: c)

/-- The string `a|b|c|d`. -/
def join4 (a b c d : Str) : Str := a ++ '|' :: (b ++ '|' :: (c ++ '|' :: d))

/-- The test of the loop in `checkBruteForce`: a failed `login` record less than 600 seconds
old at time `now`. -/
def recentFailedLogin (now : Int) (log : LogEntry) : Bool :=
  log.action = ['l', 'o', 'g', 'i', 'n'] && !log.success && decide (now - log.timestamp < 600)

/-- The audit records of `username` in the log table, in insertion order. -/
def Database.userRecords (db : Database) (username : Str) : List LogEntry :=
  db.logs.filter (fun l => l.username = username)

/-- The five checks of `loginUser` taken together: the account is found, is not banned, the
password verifies, the subscription is not over, the stored hwid is empty or the presented one. -/
def AuthServer.loginChecks (c : Crypto) (randomBytes : Bytes 16) (s : AuthServer) (now : Int)
    (username password hwid : Str) : Bool :=
  decide ((s.m_database.getUserByUsername username).id ≠ 0)
  && !(s.m_database.getUserByUsername username).isBanned
  && AuthManager.verifyPassword c randomBytes password
      (s.m_database.getUserByUsername username).passwordHash
  && !(decide ((s.m_database.getUserByUsername username).subscriptionEnd < now)
      && decide ((s.m_database.getUserByUsername username).subscriptionEnd ≠ 0))
  && !(!(s.m_database.getUserByUsername username).hwid.isEmpty
      && decide ((s.m_database.getUserByUsername username).hwid ≠ hwid))

/-- The server after the two writes of a successful `loginUser` (hwid binding if the stored hwid
is empty, last login time), before the audit record is added. -/
def AuthServer.afterLoginWrites (s : AuthServer) (now : Int) (username hwid : Str) : AuthServer :=
  (if (s.m_database.getUserByUsername username).hwid.isEmpty then
      s.withDatabase (s.m_database.updateHWID username hwid).2
    else s).withDatabase
    ((if (s.m_database.getUserByUsername username).hwid.isEmpty then
        s.withDatabase (s.m_database.updateHWID username hwid).2
      else s).m_database.updateLastLogin now username).2

/-- The characters of a license key group: `A`-`Z` and `0`-`9`. -/
def isKeyChar (ch : Char) : Bool :=
  ('A' ≤ ch && ch ≤ 'Z') || ('0' ≤ ch && ch ≤ '9')

/-- The license key format `XXXX-XXXX-XXXX-XXXX`: length 19, a `-` at positions 4, 9 and 14 and
a character from `A`-`Z` or `0`-`9` at each of the other 16 positions. -/
def hasKeyFormat (key : Str) : Prop :=
  key.length = 19 ∧
  ∀ i, i < 19 →
    if i = 4 ∨ i = 9 ∨ i = 14 then key.get? i = some '-'
    else ∃ ch, key.get? i = some ch ∧ isKeyChar ch = true

/-! ## Concrete instances used to evaluate the definitions -/

/-- A stand-in MAC for evaluation: byte `i` is the sum of the character codes of key and data,
plus `i`, modulo 256. -/
def demoDigest (key data : Str) : Bytes 32 :=
  fun i => ⟨((key ++ data).foldl (fun a ch => a + ch.toNat) 0 + i.val) % 256, Nat.mod_lt _ (by decide)⟩

/-- A `Crypto` record to evaluate the definitions with. -/
def demoCrypto : Crypto :=
  { HMAC := demoDigest, PKCS5_PBKDF2_HMAC := fun password salt _ => demoDigest password salt }

/-- An `AuthManager` with three accounts: `alice` bound to `HW1`, `bob` not bound yet, `eve`
banned; the key is `k`. -/
def demoAuth : AuthManager :=
  { m_db :=
      { users :=
          [ { UserData.notFound with
                id := 1, username := ['a', 'l', 'i', 'c', 'e'], hwid := ['H', 'W', '1'] },
            { UserData.notFound with
                id := 2, username := ['b', 'o', 'b'] },
            { UserData.notFound with
                id := 3, username := ['e', 'v', 'e'], hwid := ['H', 'W', '3'], isBanned := true } ],
        logs := [] },
    m_secretKey := ['k'] }

/-- A `login` audit record of `alice` from `HW1` with the given timestamp and outcome. -/
def loginRecord (timestamp : Int) (success : Bool) : LogEntry :=
  { id := 0, username := ['a', 'l', 'i', 'c', 'e'], action := ['l', 'o', 'g', 'i', 'n'],
    ip := ['u', 'n', 'k', 'n', 'o', 'w', 'n'], hwid := ['H', 'W', '1'],
    timestamp := timestamp, success := success }

/-- The manager `demoAuth` with the given log table. -/
def demoAuthWithLogs (logs : List LogEntry) : AuthManager :=
  { demoAuth with m_db := { demoAuth.m_db with logs := logs } }

/-- A fixed outcome of `RAND_bytes`. -/
def demoRandom : Bytes 16 := fun i => ⟨i.val * 17 % 256, Nat.mod_lt _ (by decide)⟩

/-- A server with two registered accounts: `alice` (password `pw1`, bound to `HW1`) and `bob`
(password `pw2`, not bound yet), with the given audit log. -/
def demoServer (logs : List LogEntry) : AuthServer :=
  { m_authManager :=
      { m_db :=
          { users :=
              [ { UserData.notFound with
                    id := 1, username := ['a', 'l', 'i', 'c', 'e'],
                    passwordHash := AuthManager.hashPassword demoCrypto demoRandom ['p', 'w', '1'] [],
                    email := ['a', '@', 'x', '.', 'c', 'o', 'm'], hwid := ['H', 'W', '1'] },
                { UserData.notFound with
                    id := 2, username := ['b', 'o', 'b'],
                    passwordHash := AuthManager.hashPassword demoCrypto demoRandom ['p', 'w', '2'] [],
                    email := ['b', '@', 'x', '.', 'c', 'o', 'm'] } ],
            logs := logs },
        m_secretKey := ['k'] } }

/-- A fixed outcome of the random draws of `generateRandomKey`. -/
def demoDraws (i : Nat) : Fin 16 → Fin 36 :=
  fun k => ⟨(7 * i + 5 * k.val) % 36, Nat.mod_lt _ (by decide)⟩

/-- The reset token issued at time 0 for the username `alice`. -/
def demoResetToken : Str :=
  AuthManager.generatePasswordResetToken demoCrypto (demoServer []).m_authManager 0
    ['a', 'l', 'i', 'c', 'e']

/-- The manager of `demoServer` after `resetPassword(demoResetToken, "new1")` at time 0. -/
def demoAfterReset : AuthManager :=
  match AuthManager.resetPassword demoCrypto demoRandom (demoServer []).m_authManager 0
      demoResetToken ['n', 'e', 'w', '1'] with
  | Except.ok out => out.2
  | Except.error _ => (demoServer []).m_authManager

/-- A server with two accounts whose usernames do not survive the token format: the first is
named `a|5` (e-mail `c@x.com`, password `pw1`), the second has the empty username (e-mail
`d@x.com`, password `pw2`). -/
def demoServerOdd : AuthServer :=
  { m_authManager :=
      { m_db :=
          { users :=
              [ { UserData.notFound with
                    id := 1, username := ['a', '|', '5'],
                    passwordHash := AuthManager.hashPassword demoCrypto demoRandom ['p', 'w', '1'] [],
                    email := ['c', '@', 'x', '.', 'c', 'o', 'm'] },
                { UserData.notFound with
                    id := 2, username := [],
                    passwordHash := AuthManager.hashPassword demoCrypto demoRandom ['p', 'w', '2'] [],
                    email := ['d', '@', 'x', '.', 'c', 'o', 'm'] } ],
            logs := [] },
        m_secretKey := ['k'] } }

/-! ## Lemmas on the string helpers -/

theorem hexDigit_isLowerHex (d : Nat) (h : d < 16) : isLowerHex (hexDigit d) = true := by
  interval_cases d <;> decide

theorem hexByte_isLowerHex (b : Fin 256) : ∀ ch ∈ hexByte b, isLowerHex ch = true := by
  intro ch hch
  simp only [hexByte, List.mem_cons, List.mem_singleton, List.not_mem_nil, or_false] at hch
  rcases hch with rfl | rfl
  · exact hexDigit_isLowerHex _ (by omega)
  · exact hexDigit_isLowerHex _ (by omega)

theorem hexEncode_isLowerHex {n : Nat} (buf : Bytes n) :
    ∀ ch ∈ hexEncode buf, isLowerHex ch = true := by
  intro ch hch
  simp only [hexEncode, List.mem_flatMap] at hch
  obtain ⟨b, _, hb⟩ := hch
  exact hexByte_isLowerHex b ch hb

theorem hexEncode_length {n : Nat} (buf : Bytes n) : (hexEncode buf).length = 2 * n := by
  have key : ∀ l : List (Fin 256), (l.flatMap hexByte).length = 2 * l.length := by
    intro l
    induction l with
    | nil => rfl
    | cons x xs ih =>
      simp only [List.flatMap_cons, List.length_append, ih, hexByte, List.length_cons,
        List.length_nil]
      omega
  rw [hexEncode, key, List.length_ofFn]

theorem hexEncode_not_mem {n : Nat} (buf : Bytes n) (ch : Char) (h : isLowerHex ch = false) :
    ch ∉ hexEncode buf := by
  intro hmem
  rw [hexEncode_isLowerHex buf ch hmem] at h
  exact Bool.noConfusion h

theorem hexEncode_ne_nil {n : Nat} (buf : Bytes (n + 1)) : hexEncode buf ≠ [] := by
  intro h0
  have := hexEncode_length buf
  rw [h0] at this
  simp at this

theorem find_append_cons (a b : Str) (ch : Char) (h : ch ∉ a) :
    find (a ++ ch :: b) ch = some a.length := by
  induction a with
  | nil => simp [find]
  | cons x xs ih =>
    have hx : x ≠ ch := fun e => h (by simp [e])
    have hxs : ch ∉ xs := fun e => h (by simp [e])
    simp [find, hx, ih hxs]

theorem isEmpty_eq_false {α : Type} {l : List α} (h : l ≠ []) : l.isEmpty = false := by
  cases l <;> simp_all

/-! ## C1: password hashing round trip -/

/-- What `hashPassword` returns: the salt it used, which is non-empty and has no `$` whenever
the salt argument has none, then `$`, then the hex digest. -/
theorem hashPassword_shape (c : Crypto) (r : Bytes 16) (p s : Str) (hs : '$' ∉ s) :
    ∃ salt, AuthManager.hashPassword c r p s
        = salt ++ '$' :: hexEncode (c.PKCS5_PBKDF2_HMAC p salt 10000)
      ∧ salt = (if s.isEmpty then AuthManager.generateSalt r else s)
      ∧ salt ≠ [] ∧ '$' ∉ salt := by
  by_cases he : s = []
  · refine ⟨hexEncode r, ?_, ?_, hexEncode_ne_nil r, hexEncode_not_mem r '$' (by decide)⟩
    · simp [AuthManager.hashPassword, AuthManager.generateSalt, he]
    · simp [AuthManager.generateSalt, he]
  · refine ⟨s, ?_, ?_, he, hs⟩
    · simp [AuthManager.hashPassword, isEmpty_eq_false he]
    · simp [isEmpty_eq_false he]

/-- C1 (as amended): for every password `p` and every salt `s` that does not contain the
delimiter `$` (the empty salt, for which a fresh hex salt is generated, included),
`verifyPassword(p, hashPassword(p, s))` is true, whatever the random bytes and the key
derivation function are. -/
theorem verifyPassword_hashPassword (c : Crypto) (r r' : Bytes 16) (p s : Str)
    (hs : '$' ∉ s) :
    AuthManager.verifyPassword c r' p (AuthManager.hashPassword c r p s) = true
    ∧ ∃ pos, find (AuthManager.hashPassword c r p s) '$' = some pos
      ∧ substr0 (AuthManager.hashPassword c r p s) pos
          = (if s.isEmpty then AuthManager.generateSalt r else s)
      ∧ AuthManager.hashPassword c r' p (substr0 (AuthManager.hashPassword c r p s) pos)
          = AuthManager.hashPassword c r p s := by
  obtain ⟨salt, hsalt, hused, hne, hdollar⟩ := hashPassword_shape c r p s hs
  rw [hsalt]
  refine ⟨?_, salt.length, find_append_cons _ _ _ hdollar, ?_, ?_⟩
  · simp [AuthManager.verifyPassword, find_append_cons _ _ _ hdollar, substr0,
      AuthManager.hashPassword, isEmpty_eq_false hne]
  · simp [substr0, hused]
  · simp [substr0, AuthManager.hashPassword, isEmpty_eq_false hne]

/-- Witness of C1: the salt `ab` with the password `pw`. -/
theorem verifyPassword_hashPassword_witness :
    '$' ∉ ['a', 'b'] ∧
    AuthManager.verifyPassword demoCrypto demoRandom ['p', 'w']
      (AuthManager.hashPassword demoCrypto demoRandom ['p', 'w'] ['a', 'b']) = true :=
  ⟨by decide, (verifyPassword_hashPassword demoCrypto demoRandom demoRandom ['p', 'w'] ['a', 'b']
    (by decide)).1⟩

/-- With the salt `a$b` the stored hash is `a$b$<digest>`; `verifyPassword` cuts it at the first
`$`, re-hashes with the salt `a` and gets a string two characters shorter: the comparison fails
for every key derivation function. -/
theorem verifyPassword_dollar_salt (c : Crypto) (r r' : Bytes 16) (p : Str) :
    AuthManager.verifyPassword c r' p (AuthManager.hashPassword c r p ['a', '$', 'b']) = false := by
  have hlen : ∀ x y : Bytes 32, ['a', '$'] ++ hexEncode x ≠ ['a', '$', 'b', '$'] ++ hexEncode y := by
    intro x y h
    have := congrArg List.length h
    simp [hexEncode_length] at this
  simpa [AuthManager.verifyPassword, AuthManager.hashPassword, find, substr0] using hlen _ _

/-- C1 (counterexample): the claim as stated ("every salt") fails for the salt `a$b`. -/
theorem verifyPassword_hashPassword_counterexample :
    AuthManager.verifyPassword demoCrypto demoRandom ['p', 'w']
      (AuthManager.hashPassword demoCrypto demoRandom ['p', 'w'] ['a', '$', 'b']) = false := by
  decide

/-! ## Lemmas on decimal rendering and `stoll` -/

theorem decimalAux_append (fuel n : Nat) (acc : Str) :
    decimalAux fuel n acc = decimalAux fuel n [] ++ acc := by
  induction fuel generalizing n acc with
  | zero => simp [decimalAux]
  | succ f ih =>
    simp only [decimalAux]
    split
    · simp
    · rw [ih (n / 10) (_ :: acc), ih (n / 10) [_]]
      simp

theorem digit_facts : ∀ d, d < 10 →
    (Char.ofNat (48 + d)).isDigit = true ∧ (Char.ofNat (48 + d)).toNat - 48 = d := by
  decide

theorem decimalAux_isDigit (fuel n : Nat) :
    ∀ ch ∈ decimalAux fuel n [], ch.isDigit = true := by
  induction fuel generalizing n with
  | zero => simp [decimalAux]
  | succ f ih =>
    intro ch hch
    simp only [decimalAux] at hch
    split at hch
    · simp only [List.mem_singleton] at hch
      subst hch
      exact (digit_facts _ (Nat.mod_lt _ (by decide))).1
    · rw [decimalAux_append] at hch
      simp only [List.mem_append, List.mem_singleton] at hch
      rcases hch with h | h
      · exact ih _ ch h
      · subst h
        exact (digit_facts _ (Nat.mod_lt _ (by decide))).1

theorem digitsValue_append_singleton (ds : Str) (ch : Char) :
    digitsValue (ds ++ [ch]) = 10 * digitsValue ds + (ch.toNat - 48) := by
  simp [digitsValue, List.foldl_append]

theorem digitsValue_decimalAux (fuel n : Nat) (h : n < fuel) :
    digitsValue (decimalAux fuel n []) = n := by
  induction fuel generalizing n with
  | zero => omega
  | succ f ih =>
    simp only [decimalAux]
    split
    · rename_i h0
      have := (digit_facts _ (Nat.mod_lt n (by decide : 0 < 10))).2
      simp only [digitsValue, List.foldl_cons, List.foldl_nil, this]
      omega
    · rename_i h0
      rw [decimalAux_append, digitsValue_append_singleton, ih (n / 10) (by omega),
        (digit_facts _ (Nat.mod_lt n (by decide : 0 < 10))).2]
      omega

theorem decimalAux_ne_nil (fuel n : Nat) : decimalAux (fuel + 1) n [] ≠ [] := by
  simp only [decimalAux]
  split
  · simp
  · rw [decimalAux_append]
    simp

theorem decimalNat_isDigit (n : Nat) : ∀ ch ∈ decimalNat n, ch.isDigit = true :=
  decimalAux_isDigit _ _

theorem decimalNat_ne_nil (n : Nat) : decimalNat n ≠ [] := decimalAux_ne_nil _ _

theorem digitsValue_decimalNat (n : Nat) : digitsValue (decimalNat n) = n :=
  digitsValue_decimalAux _ _ (Nat.lt_succ_self n)

theorem takeWhile_all {α : Type} (p : α → Bool) (l : List α) (h : ∀ x ∈ l, p x = true) :
    l.takeWhile p = l := by
  induction l with
  | nil => rfl
  | cons x xs ih =>
    have hx := h x (by simp)
    simp [List.takeWhile_cons, hx, ih (fun y hy => h y (by simp [hy]))]

theorem isDigit_not_space (ch : Char) (h : ch.isDigit = true) :
    isSpace ch = false ∧ ch ≠ '-' ∧ ch ≠ '+' ∧ ch ≠ '|' := by
  refine ⟨?_, ?_, ?_, ?_⟩
  · simp only [isSpace, Bool.or_eq_false_iff, decide_eq_false_iff_not]
    refine ⟨⟨⟨⟨⟨?_, ?_⟩, ?_⟩, ?_⟩, ?_⟩, ?_⟩ <;> (rintro rfl; revert h; decide)
  all_goals (rintro rfl; revert h; decide)

/-- The function `stoll` on a non-empty run of digits. -/
theorem stoll_digits (ds : Str) (hne : ds ≠ []) (hd : ∀ ch ∈ ds, ch.isDigit = true)
    (hr : (digitsValue ds : Int) < 2 ^ 63) :
    stoll ds = Except.ok (digitsValue ds : Int) := by
  obtain ⟨d, ds', rfl⟩ := List.exists_cons_of_ne_nil hne
  obtain ⟨h1, h2, h3, _⟩ := isDigit_not_space d (hd d (by simp))
  have htw := takeWhile_all Char.isDigit (d :: ds') hd
  have hnn : (0 : Int) ≤ (digitsValue (d :: ds') : Int) := Int.natCast_nonneg _
  simp only [stoll, List.dropWhile_cons, h1, List.head?_cons, Option.some.injEq, h2, h3, or_self,
    if_false, htw, List.isEmpty_cons, decide_False, Bool.false_eq_true]
  rw [if_neg]
  omega

/-- The function `stoll` on `-` followed by a non-empty run of digits. -/
theorem stoll_neg_digits (ds : Str) (hne : ds ≠ []) (hd : ∀ ch ∈ ds, ch.isDigit = true)
    (hr : (digitsValue ds : Int) ≤ 2 ^ 63) :
    stoll ('-' :: ds) = Except.ok (-(digitsValue ds : Int)) := by
  have htw := takeWhile_all Char.isDigit ds hd
  have hnn : (0 : Int) ≤ (digitsValue ds : Int) := Int.natCast_nonneg _
  have hsp : isSpace '-' = false := by decide
  simp only [stoll, List.dropWhile_cons, hsp, List.head?_cons, true_or, if_true, List.tail_cons,
    htw, isEmpty_eq_false hne, decide_True, Bool.false_eq_true, if_false]
  rw [if_neg]
  omega

/-- Reading back a rendered `time_t`: `stoll` inverts `decimal` on the 64-bit range. -/
theorem stoll_decimal (t : Int) (hlo : -(2 : Int) ^ 63 ≤ t) (hhi : t < (2 : Int) ^ 63) :
    stoll (decimal t) = Except.ok t := by
  unfold decimal
  split
  · rw [stoll_neg_digits _ (decimalNat_ne_nil _) (decimalNat_isDigit _)]
    · rw [digitsValue_decimalNat]; congr 1; omega
    · rw [digitsValue_decimalNat]; omega
  · rw [stoll_digits _ (decimalNat_ne_nil _) (decimalNat_isDigit _)]
    · rw [digitsValue_decimalNat]; congr 1; omega
    · rw [digitsValue_decimalNat]; omega

theorem decimal_ne_nil (t : Int) : decimal t ≠ [] := by
  unfold decimal
  split
  · simp
  · exact decimalNat_ne_nil _

theorem decimal_no_bar (t : Int) : '|' ∉ decimal t := by
  have hn : '|' ∉ decimalNat t.natAbs := fun h => by
    have := decimalNat_isDigit _ _ h
    revert this; decide
  unfold decimal
  split
  · simp only [List.mem_cons, not_or]
    exact ⟨by decide, hn⟩
  · exact hn

/-! ## Lemmas on token parsing -/

theorem splitDelim_append_cons (a b : Str) (d : Char) (h : d ∉ a) :
    splitDelim (a ++ d :: b) d = (a, some b) := by
  induction a with
  | nil => simp [splitDelim]
  | cons x xs ih =>
    have hx : x ≠ d := fun e => h (by simp [e])
    have hxs : d ∉ xs := fun e => h (by simp [e])
    simp [splitDelim, hx, ih hxs]

theorem splitDelim_of_not_mem (a : Str) (d : Char) (h : d ∉ a) :
    splitDelim a d = (a, none) := by
  induction a with
  | nil => simp [splitDelim]
  | cons x xs ih =>
    have hx : x ≠ d := fun e => h (by simp [e])
    have hxs : d ∉ xs := fun e => h (by simp [e])
    simp [splitDelim, hx, ih hxs]

theorem sessionFields_join4 (u h e s : Str) (hu : '|' ∉ u) (hh : '|' ∉ h) (he : '|' ∉ e)
    (hs : '|' ∉ s) : sessionFields (join4 u h e s) = (u, h, e, s) := by
  simp [sessionFields, join4, getline, splitDelim_append_cons, splitDelim_of_not_mem, hu, hh, he,
    hs]

theorem sessionFields_join4_trailing (u h e s rest : Str) (hu : '|' ∉ u) (hh : '|' ∉ h)
    (he : '|' ∉ e) (hs : '|' ∉ s) :
    sessionFields (join4 u h e (s ++ '|' :: rest)) = (u, h, e, s) := by
  simp [sessionFields, join4, getline, splitDelim_append_cons, hu, hh, he, hs]

theorem resetFields_join3 (u e s : Str) (hu : '|' ∉ u) (he : '|' ∉ e)
    (hs : '|' ∉ s) : resetFields (join3 u e s) = (u, e, s) := by
  simp [resetFields, join3, getline, splitDelim_append_cons, splitDelim_of_not_mem, hu, he, hs]

/-- The function `validateToken` in terms of the fields it reads. -/
theorem validateToken_eq (c : Crypto) (am : AuthManager) (now : Int) (token : Str) :
    AuthManager.validateToken c am now token =
      (if (sessionFields token).1.isEmpty || (sessionFields token).2.1.isEmpty
          || (sessionFields token).2.2.1.isEmpty || (sessionFields token).2.2.2.isEmpty then
        Except.ok false
      else
        match stoll (sessionFields token).2.2.1 with
        | Except.error e => Except.error e
        | Except.ok expiry =>
          if now > expiry then Except.ok false
          else if (sessionFields token).2.2.2 ≠ AuthManager.signData c am
              (join3 (sessionFields token).1 (sessionFields token).2.1 (sessionFields token).2.2.1)
            then Except.ok false
          else if (am.m_db.getUserByUsername (sessionFields token).1).id = 0 then Except.ok false
          else if (am.m_db.getUserByUsername (sessionFields token).1).isBanned then Except.ok false
          else if !(am.m_db.getUserByUsername (sessionFields token).1).hwid.isEmpty
              && (am.m_db.getUserByUsername (sessionFields token).1).hwid
                ≠ (sessionFields token).2.1 then Except.ok false
          else Except.ok true) := by
  simp only [AuthManager.validateToken, sessionFields, join3, List.append_assoc,
    List.singleton_append, List.cons_append, List.nil_append]

theorem generateToken_eq (c : Crypto) (am : AuthManager) (now : Int) (u h : Str) :
    AuthManager.generateToken c am now u h =
      join4 u h (decimal (now + 86400))
        (AuthManager.signData c am (join3 u h (decimal (now + 86400)))) := by
  simp [AuthManager.generateToken, join4, join3]

theorem signData_no_bar (c : Crypto) (am : AuthManager) (data : Str) :
    '|' ∉ AuthManager.signData c am data :=
  hexEncode_not_mem _ '|' (by decide)

theorem signData_ne_nil (c : Crypto) (am : AuthManager) (data : Str) :
    AuthManager.signData c am data ≠ [] :=
  hexEncode_ne_nil _

theorem signData_length (c : Crypto) (am : AuthManager) (data : Str) :
    (AuthManager.signData c am data).length = 64 := by
  simp [AuthManager.signData, hexEncode_length]

/-! ## C2: a freshly issued session token is accepted until it expires -/

/-- C2 (as amended): for every non-empty username `u` and non-empty hwid `h`, neither containing
the delimiter `|`, such that account `u` exists, is not banned and has a stored hwid that is empty
or equal to `h`, the token `generateToken(u, h)` issued at time `t` is accepted by `validateToken`
at every time `t'` with `t ≤ t' < t + 86400`, under the same key (`t` and `t + 86400` being
64-bit `time_t` values). -/
theorem validateToken_generateToken (c : Crypto) (am : AuthManager) (t t' : Int) (u h : Str)
    (hu : u ≠ []) (hh : h ≠ []) (hub : '|' ∉ u) (hhb : '|' ∉ h)
    (hexists : (am.m_db.getUserByUsername u).id ≠ 0)
    (hban : (am.m_db.getUserByUsername u).isBanned = false)
    (hhwid : (am.m_db.getUserByUsername u).hwid = [] ∨ (am.m_db.getUserByUsername u).hwid = h)
    (hlo : -(2 : Int) ^ 63 ≤ t) (hhi : t + 86400 < (2 : Int) ^ 63)
    (_h1 : t ≤ t') (h2 : t' < t + 86400) :
    AuthManager.validateToken c am t' (AuthManager.generateToken c am t u h) = Except.ok true := by
  have hf := sessionFields_join4 u h (decimal (t + 86400))
    (AuthManager.signData c am (join3 u h (decimal (t + 86400)))) hub hhb (decimal_no_bar _)
    (signData_no_bar _ _ _)
  rw [generateToken_eq, validateToken_eq, hf]
  have hst := stoll_decimal (t + 86400) (by omega) hhi
  have hnot : ¬ t' > t + 86400 := by omega
  simp only [isEmpty_eq_false hu, isEmpty_eq_false hh, isEmpty_eq_false (decimal_ne_nil _),
    isEmpty_eq_false (signData_ne_nil _ _ _), Bool.or_self, Bool.false_eq_true, if_false, hst,
    hnot, ne_eq, not_true_eq_false, hexists, hban]
  rcases hhwid with h0 | h0 <;> simp [h0]

/-- Witness of C2: `alice` on `HW1`, token issued at time 0 and presented at time 100. -/
theorem validateToken_generateToken_witness :
    (demoAuth.m_db.getUserByUsername ['a', 'l', 'i', 'c', 'e']).id ≠ 0 ∧
    (demoAuth.m_db.getUserByUsername ['a', 'l', 'i', 'c', 'e']).isBanned = false ∧
    (demoAuth.m_db.getUserByUsername ['a', 'l', 'i', 'c', 'e']).hwid = ['H', 'W', '1'] ∧
    AuthManager.validateToken demoCrypto demoAuth 100
      (AuthManager.generateToken demoCrypto demoAuth 0 ['a', 'l', 'i', 'c', 'e'] ['H', 'W', '1'])
      = Except.ok true :=
  ⟨by decide, by decide, by decide,
    validateToken_generateToken demoCrypto demoAuth 0 100 ['a', 'l', 'i', 'c', 'e']
      ['H', 'W', '1'] (by decide) (by decide) (by decide) (by decide) (by decide) (by decide)
      (by decide) (by decide) (by decide) (by decide) (by decide)⟩

/-- With an empty hwid the token is `u||expiry|signature`; `validateToken` reads an empty hwid
field and returns false, for every MAC. -/
theorem validateToken_generateToken_empty_hwid (c : Crypto) (am : AuthManager) (t t' : Int)
    (u : Str) (hub : '|' ∉ u) :
    AuthManager.validateToken c am t' (AuthManager.generateToken c am t u []) = Except.ok false := by
  have hf := sessionFields_join4 u [] (decimal (t + 86400))
    (AuthManager.signData c am (join3 u [] (decimal (t + 86400)))) hub (by simp)
    (decimal_no_bar _) (signData_no_bar _ _ _)
  rw [generateToken_eq, validateToken_eq, hf]
  simp

/-- C2 (counterexample): `bob` exists, is not banned and has an empty stored hwid, yet the token
issued for him with the empty hwid is rejected at the time of issue. -/
theorem validateToken_generateToken_counterexample :
    (demoAuth.m_db.getUserByUsername ['b', 'o', 'b']).id ≠ 0 ∧
    (demoAuth.m_db.getUserByUsername ['b', 'o', 'b']).isBanned = false ∧
    (demoAuth.m_db.getUserByUsername ['b', 'o', 'b']).hwid = [] ∧
    AuthManager.validateToken demoCrypto demoAuth 0
      (AuthManager.generateToken demoCrypto demoAuth 0 ['b', 'o', 'b'] []) = Except.ok false := by
  decide

/-! ## C3: expired tokens -/

/-- The function `validatePasswordResetToken` in terms of the fields it reads. -/
theorem validatePasswordResetToken_eq (c : Crypto) (am : AuthManager) (now : Int) (token : Str) :
    AuthManager.validatePasswordResetToken c am now token =
      (if (resetFields token).1.isEmpty || (resetFields token).2.1.isEmpty
          || (resetFields token).2.2.isEmpty then
        Except.ok false
      else
        match stoll (resetFields token).2.1 with
        | Except.error e => Except.error e
        | Except.ok expiry =>
          if now > expiry then Except.ok false
          else Except.ok ((resetFields token).2.2 == AuthManager.signData c am
              (join2 (resetFields token).1 (resetFields token).2.1))) := by
  simp only [AuthManager.validatePasswordResetToken, resetFields, join2, List.append_assoc,
    List.singleton_append, List.cons_append, List.nil_append]

/-- C3 (as amended): a token whose embedded expiry epoch is strictly before the current time is
rejected: `validateToken` returns false for every string whose expiry field reads as `expiry`
with `now > expiry`, whatever the signature and the account state, and so does
`validatePasswordResetToken` on reset tokens. At `now = expiry` the expiry check passes and a
correctly signed token is still accepted: a session token with non-empty fields and the right
signature whose account exists, is not banned and has an empty or matching hwid, and a reset
token with non-empty fields and the right signature. -/
theorem expired_token_rejected (c : Crypto) (am : AuthManager) (now : Int) (token resetToken : Str)
    (expiry expiry' : Int)
    (he : stoll (sessionFields token).2.2.1 = Except.ok expiry)
    (he' : stoll (resetFields resetToken).2.1 = Except.ok expiry') :
    (now > expiry → AuthManager.validateToken c am now token = Except.ok false)
    ∧ (now > expiry' →
        AuthManager.validatePasswordResetToken c am now resetToken = Except.ok false)
    ∧ (now = expiry →
        ((sessionFields token).1 ≠ [] ∧ (sessionFields token).2.1 ≠ []
          ∧ (sessionFields token).2.2.1 ≠ [] ∧ (sessionFields token).2.2.2 ≠ []) →
        (sessionFields token).2.2.2 = AuthManager.signData c am
          (join3 (sessionFields token).1 (sessionFields token).2.1 (sessionFields token).2.2.1) →
        (am.m_db.getUserByUsername (sessionFields token).1).id ≠ 0 →
        (am.m_db.getUserByUsername (sessionFields token).1).isBanned = false →
        ((am.m_db.getUserByUsername (sessionFields token).1).hwid = []
          ∨ (am.m_db.getUserByUsername (sessionFields token).1).hwid
            = (sessionFields token).2.1) →
        AuthManager.validateToken c am now token = Except.ok true)
    ∧ (now = expiry' →
        ((resetFields resetToken).1 ≠ [] ∧ (resetFields resetToken).2.1 ≠ []
          ∧ (resetFields resetToken).2.2 ≠ []) →
        (resetFields resetToken).2.2 = AuthManager.signData c am
          (join2 (resetFields resetToken).1 (resetFields resetToken).2.1) →
        AuthManager.validatePasswordResetToken c am now resetToken = Except.ok true) := by
  refine ⟨?_, ?_, ?_, ?_⟩
  · intro hnow
    rw [validateToken_eq, he]
    simp [hnow]
  · intro hnow'
    rw [validatePasswordResetToken_eq, he']
    simp [hnow']
  · intro hnow hfields hsig hexists hban hhwid
    obtain ⟨h1, h2, h3, h4⟩ := hfields
    subst hnow
    rw [validateToken_eq, he]
    simp only [isEmpty_eq_false h1, isEmpty_eq_false h2, isEmpty_eq_false h3,
      isEmpty_eq_false h4, isEmpty_eq_false (signData_ne_nil c am _), Bool.or_self,
      Bool.false_eq_true, if_false, gt_iff_lt, lt_self_iff_false, ne_eq, hsig,
      not_true_eq_false, hexists, hban]
    rcases hhwid with h0 | h0 <;> simp [h0]
  · intro hnow hfields hsig
    obtain ⟨h1, h2, h3⟩ := hfields
    subst hnow
    rw [validatePasswordResetToken_eq, he']
    simp only [isEmpty_eq_false h1, isEmpty_eq_false h2, isEmpty_eq_false h3, Bool.or_self,
      Bool.false_eq_true, if_false, gt_iff_lt, lt_self_iff_false]
    rw [hsig]
    simp

/-- Witness of C3: tokens with expiry 5 presented at time 6 are rejected; the session token and
the reset token of `alice` issued at time 0 are accepted at their expiry epochs 86400 and 3600. -/
theorem expired_token_rejected_witness :
    (AuthManager.validateToken demoCrypto demoAuth 6 ['a', '|', 'b', '|', '5', '|', 'c']
      = Except.ok false ∧
    AuthManager.validatePasswordResetToken demoCrypto demoAuth 6 ['a', '|', '5', '|', 'c']
      = Except.ok false) ∧
    (AuthManager.validateToken demoCrypto demoAuth 86400
      (AuthManager.generateToken demoCrypto demoAuth 0 ['a', 'l', 'i', 'c', 'e'] ['H', 'W', '1'])
      = Except.ok true ∧
    AuthManager.validatePasswordResetToken demoCrypto demoAuth 3600
      (AuthManager.generatePasswordResetToken demoCrypto demoAuth 0 ['a', 'l', 'i', 'c', 'e'])
      = Except.ok true) :=
  ⟨⟨(expired_token_rejected demoCrypto demoAuth 6 ['a', '|', 'b', '|', '5', '|', 'c']
      ['a', '|', '5', '|', 'c'] 5 5 (by decide) (by decide)).1 (by decide),
    (expired_token_rejected demoCrypto demoAuth 6 ['a', '|', 'b', '|', '5', '|', 'c']
      ['a', '|', '5', '|', 'c'] 5 5 (by decide) (by decide)).2.1 (by decide)⟩,
   ⟨(expired_token_rejected demoCrypto demoAuth 86400
      (AuthManager.generateToken demoCrypto demoAuth 0 ['a', 'l', 'i', 'c', 'e'] ['H', 'W', '1'])
      ['a', '|', '5', '|', 'c'] 86400 5 (by decide) (by decide)).2.2.1 (by decide) (by decide)
      (by decide) (by decide) (by decide) (by decide),
    (expired_token_rejected demoCrypto demoAuth 3600 ['a', '|', 'b', '|', '5', '|', 'c']
      (AuthManager.generatePasswordResetToken demoCrypto demoAuth 0 ['a', 'l', 'i', 'c', 'e'])
      5 3600 (by decide) (by decide)).2.2.2 (by decide) (by decide) (by decide)⟩⟩

/-- At the expiry epoch itself the token issued by `generateToken` is still accepted, for every
MAC, when the account is in good standing. -/
theorem validateToken_at_expiry (c : Crypto) (am : AuthManager) (t : Int) (u h : Str)
    (hu : u ≠ []) (hh : h ≠ []) (hub : '|' ∉ u) (hhb : '|' ∉ h)
    (hexists : (am.m_db.getUserByUsername u).id ≠ 0)
    (hban : (am.m_db.getUserByUsername u).isBanned = false)
    (hhwid : (am.m_db.getUserByUsername u).hwid = [] ∨ (am.m_db.getUserByUsername u).hwid = h)
    (hlo : -(2 : Int) ^ 63 ≤ t) (hhi : t + 86400 < (2 : Int) ^ 63) :
    AuthManager.validateToken c am (t + 86400) (AuthManager.generateToken c am t u h)
      = Except.ok true := by
  have hf := sessionFields_join4 u h (decimal (t + 86400))
    (AuthManager.signData c am (join3 u h (decimal (t + 86400)))) hub hhb (decimal_no_bar _)
    (signData_no_bar _ _ _)
  rw [generateToken_eq, validateToken_eq, hf]
  have hst := stoll_decimal (t + 86400) (by omega) hhi
  simp only [isEmpty_eq_false hu, isEmpty_eq_false hh, isEmpty_eq_false (decimal_ne_nil _),
    isEmpty_eq_false (signData_ne_nil _ _ _), Bool.or_self, Bool.false_eq_true, if_false, hst,
    gt_iff_lt, lt_self_iff_false, ne_eq, not_true_eq_false, hexists, hban]
  rcases hhwid with h0 | h0 <;> simp [h0]

/-- C3 (counterexample): the session token issued at time 0 has expiry epoch 86400 and is accepted
at time 86400; the reset token issued at time 0 has expiry 3600 and is accepted at time 3600. -/
theorem expired_token_rejected_counterexample :
    stoll (sessionFields (AuthManager.generateToken demoCrypto demoAuth 0
      ['a', 'l', 'i', 'c', 'e'] ['H', 'W', '1'])).2.2.1 = Except.ok 86400 ∧
    AuthManager.validateToken demoCrypto demoAuth 86400
      (AuthManager.generateToken demoCrypto demoAuth 0 ['a', 'l', 'i', 'c', 'e'] ['H', 'W', '1'])
      = Except.ok true ∧
    stoll (resetFields (AuthManager.generatePasswordResetToken demoCrypto demoAuth 0
      ['a', 'l', 'i', 'c', 'e'])).2.1 = Except.ok 3600 ∧
    AuthManager.validatePasswordResetToken demoCrypto demoAuth 3600
      (AuthManager.generatePasswordResetToken demoCrypto demoAuth 0 ['a', 'l', 'i', 'c', 'e'])
      = Except.ok true := by
  decide

/-! ## C4: malformed expiry fields -/

/-- C4 (the code at the failing inputs): on `a|b|x|c` the call `std::stoll("x")` throws
`std::invalid_argument` and on `a|b|9223372036854775808|c` it throws `std::out_of_range`;
`validateToken` does not catch either, so the exception leaves the function instead of a `false`
result. The same happens in `validatePasswordResetToken` on `a|x|c` and
`a|9223372036854775808|c`. This holds for every key, MAC, database and time. -/
theorem validateToken_throws (c : Crypto) (am : AuthManager) (now : Int) :
    AuthManager.validateToken c am now ['a', '|', 'b', '|', 'x', '|', 'c']
      = Except.error StollError.invalid_argument ∧
    AuthManager.validateToken c am now
        (['a', '|', 'b', '|'] ++ decimal 9223372036854775808 ++ ['|', 'c'])
      = Except.error StollError.out_of_range ∧
    AuthManager.validatePasswordResetToken c am now ['a', '|', 'x', '|', 'c']
      = Except.error StollError.invalid_argument ∧
    AuthManager.validatePasswordResetToken c am now
        (['a', '|'] ++ decimal 9223372036854775808 ++ ['|', 'c'])
      = Except.error StollError.out_of_range := by
  have e1 : sessionFields ['a', '|', 'b', '|', 'x', '|', 'c'] = (['a'], ['b'], ['x'], ['c']) := by
    decide
  have e2 : sessionFields (['a', '|', 'b', '|'] ++ decimal 9223372036854775808 ++ ['|', 'c'])
      = (['a'], ['b'], decimal 9223372036854775808, ['c']) := by decide
  have e3 : resetFields ['a', '|', 'x', '|', 'c'] = (['a'], ['x'], ['c']) := by decide
  have e4 : resetFields (['a', '|'] ++ decimal 9223372036854775808 ++ ['|', 'c'])
      = (['a'], decimal 9223372036854775808, ['c']) := by decide
  have s1 : stoll ['x'] = Except.error StollError.invalid_argument := by decide
  have s2 : stoll (decimal 9223372036854775808) = Except.error StollError.out_of_range := by
    decide
  have n2 : (decimal 9223372036854775808).isEmpty = false := by decide
  refine ⟨?_, ?_, ?_, ?_⟩
  · rw [validateToken_eq, e1]; simp [s1]
  · rw [validateToken_eq, e2]; simp [s2, n2]
  · rw [validatePasswordResetToken_eq, e3]; simp [s1]
  · rw [validatePasswordResetToken_eq, e4]; simp [s2, n2]

/-! ## C5: content after the signature field -/

/-- C5 (as amended): `validateToken` reads the first four `|`-separated fields only; whatever
follows a delimiter after the signature field is ignored, so `u|h|e|s|rest` gets exactly the
verdict of `u|h|e|s`. -/
theorem validateToken_ignores_trailing (c : Crypto) (am : AuthManager) (now : Int)
    (u h e s rest : Str) (hu : '|' ∉ u) (hh : '|' ∉ h) (he : '|' ∉ e) (hs : '|' ∉ s) :
    AuthManager.validateToken c am now (join4 u h e (s ++ '|' :: rest))
      = AuthManager.validateToken c am now (join4 u h e s) := by
  rw [validateToken_eq, validateToken_eq, sessionFields_join4_trailing u h e s rest hu hh he hs,
    sessionFields_join4 u h e s hu hh he hs]

/-- Witness of C5: the strings `a|b|5|c|x` and `a|b|5|c`. -/
theorem validateToken_ignores_trailing_witness :
    '|' ∉ ['a'] ∧ '|' ∉ ['b'] ∧ '|' ∉ ['5'] ∧ '|' ∉ ['c'] ∧
    AuthManager.validateToken demoCrypto demoAuth 0 (join4 ['a'] ['b'] ['5'] (['c'] ++ '|' :: ['x']))
      = AuthManager.validateToken demoCrypto demoAuth 0 (join4 ['a'] ['b'] ['5'] ['c']) :=
  ⟨by decide, by decide, by decide, by decide,
    validateToken_ignores_trailing demoCrypto demoAuth 0 ['a'] ['b'] ['5'] ['c'] ['x']
      (by decide) (by decide) (by decide) (by decide)⟩

/-- C5 (counterexample): a valid token with `|x` appended has five fields and is accepted. -/
theorem validateToken_ignores_trailing_counterexample :
    AuthManager.validateToken demoCrypto demoAuth 0
      (AuthManager.generateToken demoCrypto demoAuth 0 ['a', 'l', 'i', 'c', 'e'] ['H', 'W', '1']
        ++ ['|', 'x'])
      = Except.ok true := by
  decide

/-! ## C6: the signed plaintext and the field tuple -/

/-- C6 (as amended): for a fixed key and issuance time, and usernames that do not contain the
delimiter `|`, `generateToken(u1, h1) = generateToken(u2, h2)` implies `u1 = u2` and `h1 = h2`. -/
theorem generateToken_injective (c : Crypto) (am : AuthManager) (now : Int) (u1 h1 u2 h2 : Str)
    (hu1 : '|' ∉ u1) (hu2 : '|' ∉ u2)
    (heq : AuthManager.generateToken c am now u1 h1 = AuthManager.generateToken c am now u2 h2) :
    u1 = u2 ∧ h1 = h2 := by
  rw [generateToken_eq, generateToken_eq] at heq
  unfold join4 at heq
  have hsplit := congrArg (fun tok => splitDelim tok '|') heq
  simp only [splitDelim_append_cons _ _ _ hu1, splitDelim_append_cons _ _ _ hu2, Prod.mk.injEq,
    Option.some.injEq] at hsplit
  obtain ⟨huu, hrest⟩ := hsplit
  refine ⟨huu, ?_⟩
  have hlen : ('|' :: (decimal (now + 86400) ++ '|' ::
        AuthManager.signData c am (join3 u1 h1 (decimal (now + 86400))))).length
      = ('|' :: (decimal (now + 86400) ++ '|' ::
        AuthManager.signData c am (join3 u2 h2 (decimal (now + 86400))))).length := by
    simp [signData_length]
  exact (List.append_inj' hrest hlen).1

/-- Witness of C6: two equal calls. -/
theorem generateToken_injective_witness :
    '|' ∉ ['a', 'l', 'i', 'c', 'e'] ∧
    AuthManager.generateToken demoCrypto demoAuth 0 ['a', 'l', 'i', 'c', 'e'] ['H', 'W', '1']
      = AuthManager.generateToken demoCrypto demoAuth 0 ['a', 'l', 'i', 'c', 'e'] ['H', 'W', '1'] ∧
    (['a', 'l', 'i', 'c', 'e'] = ['a', 'l', 'i', 'c', 'e'] ∧ ['H', 'W', '1'] = ['H', 'W', '1']) :=
  ⟨by decide, rfl,
    generateToken_injective demoCrypto demoAuth 0 ['a', 'l', 'i', 'c', 'e'] ['H', 'W', '1']
      ['a', 'l', 'i', 'c', 'e'] ['H', 'W', '1'] (by decide) (by decide) rfl⟩

/-- The tuples (`a|b`, `c`) and (`a`, `b|c`) serialise to the same plaintext `a|b|c|expiry`, hence
to the same token, for every MAC, key and time. -/
theorem generateToken_collision (c : Crypto) (am : AuthManager) (now : Int) :
    AuthManager.generateToken c am now ['a', '|', 'b'] ['c']
      = AuthManager.generateToken c am now ['a'] ['b', '|', 'c'] := by
  simp [AuthManager.generateToken]

/-- C6 (counterexample): two distinct (username, hwid) tuples with the same token. -/
theorem generateToken_injective_counterexample :
    AuthManager.generateToken demoCrypto demoAuth 0 ['a', '|', 'b'] ['c']
      = AuthManager.generateToken demoCrypto demoAuth 0 ['a'] ['b', '|', 'c']
    ∧ (['a', '|', 'b'] : Str) ≠ ['a'] ∧ (['c'] : Str) ≠ ['b', '|', 'c'] := by
  decide

/-! ## C7 and C8: what acceptance means -/

/-- The function `validateToken` accepts a string exactly when the four fields it reads are
non-empty, the expiry text reads as a number not before `now`, the signature field is the MAC of
the three plaintext fields, and the account is known, not banned and not bound to another hwid. -/
theorem validateToken_accept_iff (c : Crypto) (am : AuthManager) (now : Int) (token : Str) :
    AuthManager.validateToken c am now token = Except.ok true ↔
      ((sessionFields token).1 ≠ [] ∧ (sessionFields token).2.1 ≠ []
        ∧ (sessionFields token).2.2.1 ≠ [] ∧ (sessionFields token).2.2.2 ≠ [])
      ∧ (∃ expiry, stoll (sessionFields token).2.2.1 = Except.ok expiry ∧ now ≤ expiry)
      ∧ (sessionFields token).2.2.2 = AuthManager.signData c am
          (join3 (sessionFields token).1 (sessionFields token).2.1 (sessionFields token).2.2.1)
      ∧ (am.m_db.getUserByUsername (sessionFields token).1).id ≠ 0
      ∧ (am.m_db.getUserByUsername (sessionFields token).1).isBanned = false
      ∧ ((am.m_db.getUserByUsername (sessionFields token).1).hwid = []
        ∨ (am.m_db.getUserByUsername (sessionFields token).1).hwid = (sessionFields token).2.1) := by
  rw [validateToken_eq]
  generalize sessionFields token = f
  obtain ⟨u, h, e, s⟩ := f
  simp only
  cases hst : stoll e with
  | error err =>
    by_cases h1 : u = [] <;> by_cases h2 : h = [] <;> by_cases h3 : e = [] <;>
      by_cases h4 : s = [] <;> simp [h1, h2, h3, h4, isEmpty_eq_false]
  | ok x =>
    by_cases h1 : u = [] <;> by_cases h2 : h = [] <;> by_cases h3 : e = [] <;>
      by_cases h4 : s = [] <;> simp [h1, h2, h3, h4, isEmpty_eq_false]
    by_cases h5 : x < now
    · simp [h5]
    · simp only [h5, if_false, not_lt.mp h5, true_and]
      by_cases h6 : s = AuthManager.signData c am (join3 u h e)
      · simp only [h6, not_true_eq_false, if_false, true_and]
        by_cases h7 : (am.m_db.getUserByUsername u).id = 0
        · simp [h7]
        · simp only [h7, if_false, not_false_eq_true, true_and]
          cases h8 : (am.m_db.getUserByUsername u).isBanned
          · by_cases h9 : (am.m_db.getUserByUsername u).hwid = []
            · simp [h9]
            · by_cases h10 : (am.m_db.getUserByUsername u).hwid = h
              · simp [h10]
              · simp [h9, h10, isEmpty_eq_false]
          · simp
      · simp [h6]

/-- A signature field that differs from the MAC of the plaintext fields gives `false` once the
fields are non-empty and the expiry text reads as a number. -/
theorem validateToken_bad_signature (c : Crypto) (am : AuthManager) (now : Int) (token : Str)
    (expiry : Int) (he : stoll (sessionFields token).2.2.1 = Except.ok expiry)
    (hsig : (sessionFields token).2.2.2 ≠ AuthManager.signData c am
      (join3 (sessionFields token).1 (sessionFields token).2.1 (sessionFields token).2.2.1)) :
    AuthManager.validateToken c am now token = Except.ok false := by
  rw [validateToken_eq, he]
  simp only [hsig, ne_eq, not_false_eq_true, if_true]
  split <;> [rfl; (split <;> rfl)]

/-- The part of C7 that holds on the code, for the calls that return. Let `u|h|e|sig` be a
token of exactly four fields that `validateToken` accepts. Changing one character of the
signature makes `validateToken` return false at the same time, key and account state. Replacing
the plaintext fields by other `|`-free fields never gives an accepted token unless the MAC of
the new plaintext equals the MAC of the old one. -/
theorem validateToken_mutation (c : Crypto) (am : AuthManager) (now : Int)
    (u h e s1 s2 : Str) (ch ch' : Char)
    (hu : '|' ∉ u) (hh : '|' ∉ h) (he : '|' ∉ e) (hs : '|' ∉ s1 ++ ch :: s2)
    (hvalid : AuthManager.validateToken c am now (join4 u h e (s1 ++ ch :: s2)) = Except.ok true)
    (hch : ch' ≠ ch) :
    AuthManager.validateToken c am now (join4 u h e (s1 ++ ch' :: s2)) = Except.ok false
    ∧ ∀ u' h' e' : Str, '|' ∉ u' → '|' ∉ h' → '|' ∉ e' →
        AuthManager.signData c am (join3 u' h' e') ≠ AuthManager.signData c am (join3 u h e) →
        AuthManager.validateToken c am now (join4 u' h' e' (s1 ++ ch :: s2)) ≠ Except.ok true := by
  have hacc := (validateToken_accept_iff c am now _).mp hvalid
  rw [sessionFields_join4 u h e _ hu hh he hs] at hacc
  obtain ⟨_, ⟨x, hx, _⟩, hsig, _⟩ := hacc
  simp only at hx hsig
  have hs1 : '|' ∉ s1 := fun hm => hs (by simp [hm])
  have hs2 : '|' ∉ s2 := fun hm => hs (by simp [hm])
  constructor
  · by_cases hbar : ch' = '|'
    · -- the new character is a delimiter: the signature field is cut short
      subst hbar
      apply validateToken_bad_signature c am now _ x
      · rw [sessionFields_join4_trailing u h e s1 s2 hu hh he hs1]; exact hx
      · rw [sessionFields_join4_trailing u h e s1 s2 hu hh he hs1]
        simp only
        rw [← hsig]
        intro hcontra
        have := congrArg List.length hcontra
        simp at this
    · have hs' : '|' ∉ s1 ++ ch' :: s2 := by
        simp only [List.mem_append, List.mem_cons, not_or]
        exact ⟨hs1, fun e0 => hbar e0.symm, hs2⟩
      apply validateToken_bad_signature c am now _ x
      · rw [sessionFields_join4 u h e _ hu hh he hs']; exact hx
      · rw [sessionFields_join4 u h e _ hu hh he hs']
        simp only
        rw [← hsig]
        intro hcontra
        have := List.append_cancel_left hcontra
        simp only [List.cons.injEq] at this
        exact hch this.1
  · intro u' h' e' hu' hh' he' hmac hacc'
    have hacc2 := (validateToken_accept_iff c am now _).mp hacc'
    rw [sessionFields_join4 u' h' e' _ hu' hh' he' hs] at hacc2
    obtain ⟨_, _, hsig', _⟩ := hacc2
    simp only at hsig'
    exact hmac (hsig'.symm.trans hsig)

/-- C8: for a session token that passes the structure, expiry and signature checks (four
non-empty fields, an expiry that reads as a number not before `now`, a signature field equal to
the MAC of the plaintext fields), `validateToken` returns true if and only if the account named
in the token exists, is not banned and has a stored hwid that is empty or equal to the token's
hwid; it returns false when the account is missing, banned, or bound to another non-empty hwid. -/
theorem validateToken_account_state (c : Crypto) (am : AuthManager) (now : Int) (token : Str)
    (expiry : Int)
    (hfields : (sessionFields token).1 ≠ [] ∧ (sessionFields token).2.1 ≠ []
        ∧ (sessionFields token).2.2.1 ≠ [] ∧ (sessionFields token).2.2.2 ≠ [])
    (he : stoll (sessionFields token).2.2.1 = Except.ok expiry) (hnow : now ≤ expiry)
    (hsig : (sessionFields token).2.2.2 = AuthManager.signData c am
      (join3 (sessionFields token).1 (sessionFields token).2.1 (sessionFields token).2.2.1)) :
    (AuthManager.validateToken c am now token = Except.ok true ↔
      (am.m_db.getUserByUsername (sessionFields token).1).id ≠ 0
      ∧ (am.m_db.getUserByUsername (sessionFields token).1).isBanned = false
      ∧ ((am.m_db.getUserByUsername (sessionFields token).1).hwid = []
        ∨ (am.m_db.getUserByUsername (sessionFields token).1).hwid = (sessionFields token).2.1))
    ∧ (AuthManager.validateToken c am now token = Except.ok false ↔
      (am.m_db.getUserByUsername (sessionFields token).1).id = 0
      ∨ (am.m_db.getUserByUsername (sessionFields token).1).isBanned = true
      ∨ ((am.m_db.getUserByUsername (sessionFields token).1).hwid ≠ []
        ∧ (am.m_db.getUserByUsername (sessionFields token).1).hwid ≠ (sessionFields token).2.1)) := by
  obtain ⟨h1, h2, h3, h4⟩ := hfields
  have hnot : ¬ now > expiry := by omega
  rw [validateToken_eq, he]
  simp only [isEmpty_eq_false h1, isEmpty_eq_false h2, isEmpty_eq_false h3, isEmpty_eq_false h4,
    isEmpty_eq_false (signData_ne_nil c am _), Bool.or_self, Bool.false_eq_true, if_false, hnot,
    hsig, ne_eq, not_true_eq_false]
  generalize am.m_db.getUserByUsername (sessionFields token).1 = user
  by_cases h7 : user.id = 0
  · simp [h7]
  · cases h8 : user.isBanned
    · by_cases h9 : user.hwid = []
      · simp [h7, h9]
      · by_cases h10 : user.hwid = (sessionFields token).2.1
        · simp [h7, h10]
        · simp [h7, h9, h10, isEmpty_eq_false]
    · simp [h7]

/-- An instance of `validateToken_mutation`: the token of `alice` issued at time 0; its
signature starts with `3`, which is changed to `x`; and the username is changed to `blice`. -/
theorem validateToken_mutation_witness :
    AuthManager.validateToken demoCrypto demoAuth 0
      (join4 ['a', 'l', 'i', 'c', 'e'] ['H', 'W', '1'] (decimal 86400)
        ([] ++ '3' :: (AuthManager.signData demoCrypto demoAuth
          (join3 ['a', 'l', 'i', 'c', 'e'] ['H', 'W', '1'] (decimal 86400))).tail))
      = Except.ok true ∧
    AuthManager.validateToken demoCrypto demoAuth 0
      (join4 ['a', 'l', 'i', 'c', 'e'] ['H', 'W', '1'] (decimal 86400)
        ([] ++ 'x' :: (AuthManager.signData demoCrypto demoAuth
          (join3 ['a', 'l', 'i', 'c', 'e'] ['H', 'W', '1'] (decimal 86400))).tail))
      = Except.ok false ∧
    AuthManager.validateToken demoCrypto demoAuth 0
      (join4 ['b', 'l', 'i', 'c', 'e'] ['H', 'W', '1'] (decimal 86400)
        ([] ++ '3' :: (AuthManager.signData demoCrypto demoAuth
          (join3 ['a', 'l', 'i', 'c', 'e'] ['H', 'W', '1'] (decimal 86400))).tail))
      ≠ Except.ok true :=
  ⟨by decide,
    (validateToken_mutation demoCrypto demoAuth 0 ['a', 'l', 'i', 'c', 'e'] ['H', 'W', '1']
      (decimal 86400) [] _ '3' 'x' (by decide) (by decide) (by decide) (by decide) (by decide)
      (by decide)).1,
    (validateToken_mutation demoCrypto demoAuth 0 ['a', 'l', 'i', 'c', 'e'] ['H', 'W', '1']
      (decimal 86400) [] _ '3' 'x' (by decide) (by decide) (by decide) (by decide) (by decide)
      (by decide)).2 ['b', 'l', 'i', 'c', 'e'] ['H', 'W', '1'] (decimal 86400) (by decide)
      (by decide) (by decide) (by decide)⟩

/-- C7 (the code at the failing input): the token `alice|HW1|86400|sig` issued at time 0 is
accepted at time 0; with the first character of its expiry field changed from `8` to `x`, a
single character of the plaintext, `std::stoll("x6400")` throws `std::invalid_argument`, which
`validateToken` does not catch: the call ends with an exception instead of returning false.
This holds for every MAC. -/
theorem validateToken_mutation_throws (c : Crypto) :
    AuthManager.generateToken c demoAuth 0 ['a', 'l', 'i', 'c', 'e'] ['H', 'W', '1']
      = join4 ['a', 'l', 'i', 'c', 'e'] ['H', 'W', '1'] ['8', '6', '4', '0', '0']
          (AuthManager.signData c demoAuth
            (join3 ['a', 'l', 'i', 'c', 'e'] ['H', 'W', '1'] ['8', '6', '4', '0', '0']))
    ∧ AuthManager.validateToken c demoAuth 0
        (join4 ['a', 'l', 'i', 'c', 'e'] ['H', 'W', '1'] ['8', '6', '4', '0', '0']
          (AuthManager.signData c demoAuth
            (join3 ['a', 'l', 'i', 'c', 'e'] ['H', 'W', '1'] ['8', '6', '4', '0', '0'])))
      = Except.ok true
    ∧ AuthManager.validateToken c demoAuth 0
        (join4 ['a', 'l', 'i', 'c', 'e'] ['H', 'W', '1'] ['x', '6', '4', '0', '0']
          (AuthManager.signData c demoAuth
            (join3 ['a', 'l', 'i', 'c', 'e'] ['H', 'W', '1'] ['8', '6', '4', '0', '0'])))
      = Except.error StollError.invalid_argument := by
  have hdec : decimal (0 + 86400) = ['8', '6', '4', '0', '0'] := by decide
  refine ⟨?_, ?_, ?_⟩
  · rw [generateToken_eq, hdec]
  · refine (validateToken_accept_iff c demoAuth 0 _).mpr ?_
    rw [sessionFields_join4 _ _ _ _ (by decide) (by decide) (by decide) (signData_no_bar _ _ _)]
    dsimp only
    exact ⟨⟨by decide, by decide, by decide, signData_ne_nil _ _ _⟩, ⟨86400, by decide, by decide⟩,
      rfl, by decide, by decide, by decide⟩
  · have hst : stoll ['x', '6', '4', '0', '0'] = Except.error StollError.invalid_argument := by
      decide
    rw [validateToken_eq,
      sessionFields_join4 _ _ _ _ (by decide) (by decide) (by decide) (signData_no_bar _ _ _)]
    simp [hst, isEmpty_eq_false (signData_ne_nil _ _ _)]

/-- Witness of C8: the token of `alice` issued and presented at time 0. -/
theorem validateToken_account_state_witness :
    AuthManager.validateToken demoCrypto demoAuth 0
      (AuthManager.generateToken demoCrypto demoAuth 0 ['a', 'l', 'i', 'c', 'e'] ['H', 'W', '1'])
      = Except.ok true ∧
    (demoAuth.m_db.getUserByUsername ['a', 'l', 'i', 'c', 'e']).id ≠ 0 ∧
    (demoAuth.m_db.getUserByUsername ['a', 'l', 'i', 'c', 'e']).isBanned = false ∧
    (demoAuth.m_db.getUserByUsername ['a', 'l', 'i', 'c', 'e']).hwid = ['H', 'W', '1'] :=
  ⟨((validateToken_account_state demoCrypto demoAuth 0
      (AuthManager.generateToken demoCrypto demoAuth 0 ['a', 'l', 'i', 'c', 'e'] ['H', 'W', '1'])
      86400 (by decide) (by decide) (by decide) (by decide)).1).mpr (by decide),
    by decide, by decide, by decide⟩

/-! ## C9 and C10: the brute-force guard -/

theorem bruteForceStep_eq (now : Int) (k : Int) (log : LogEntry) :
    bruteForceStep now k log = if recentFailedLogin now log then k + 1 else k := by
  simp [bruteForceStep, recentFailedLogin]

/-- The loop of `checkBruteForce` counts the records that pass its test. -/
theorem foldl_bruteForceStep (now : Int) (logs : List LogEntry) (k : Int) :
    logs.foldl (bruteForceStep now) k = k + (logs.countP (recentFailedLogin now) : Nat) := by
  induction logs generalizing k with
  | nil => simp
  | cons l ls ih =>
    rw [List.foldl_cons, ih, bruteForceStep_eq, List.countP_cons]
    split <;> simp_all
    omega

theorem checkBruteForce_eq (am : AuthManager) (now : Int) (username ip : Str) :
    AuthManager.checkBruteForce am now username ip
      = decide (5 ≤ (am.m_db.getUserLogs username 10).countP (recentFailedLogin now)) := by
  simp only [AuthManager.checkBruteForce, foldl_bruteForceStep, ge_iff_le]
  congr 1
  apply propext
  constructor <;> intro h <;> omega

theorem insertByTimestampDesc_perm (l : LogEntry) (rows : List LogEntry) :
    (insertByTimestampDesc l rows).Perm (l :: rows) := by
  induction rows with
  | nil => simp [insertByTimestampDesc]
  | cons x xs ih =>
    simp only [insertByTimestampDesc]
    split
    · exact List.Perm.refl _
    · exact (List.Perm.cons x ih).trans (List.Perm.swap l x xs)

theorem orderByTimestampDesc_perm (rows : List LogEntry) :
    (orderByTimestampDesc rows).Perm rows := by
  induction rows with
  | nil => exact List.Perm.refl _
  | cons x xs ih =>
    simp only [orderByTimestampDesc, List.foldr_cons]
    exact (insertByTimestampDesc_perm x _).trans (List.Perm.cons x ih)

/-- With at most `limit` records for the user, `getUserLogs` returns all of them (reordered). -/
theorem getUserLogs_perm (db : Database) (username : Str) (limit : Nat)
    (h : (db.userRecords username).length ≤ limit) :
    (db.getUserLogs username limit).Perm (db.userRecords username) := by
  unfold Database.getUserLogs
  rw [List.take_of_length_le]
  · exact orderByTimestampDesc_perm _
  · rw [(orderByTimestampDesc_perm _).length_eq]; exact h

/-- C9: `checkBruteForce` returns true if and only if at least 5 of the audit records it reads
for the username (the result of `getUserLogs(username, 10)`) are failed `login` records with
`now - timestamp < 600`. When the user has exactly 5 records and all are such failures the result
is true; with at most 4 records it is false; with 5 records of which one is 600 seconds old or
older (11 minutes, say) it is false. -/
theorem checkBruteForce_iff (am : AuthManager) (now : Int) (username ip : Str) :
    (AuthManager.checkBruteForce am now username ip = true ↔
      5 ≤ (am.m_db.getUserLogs username 10).countP
        (fun log => log.action = ['l', 'o', 'g', 'i', 'n'] && !log.success
          && decide (now - log.timestamp < 600)))
    ∧ ((am.m_db.userRecords username).length = 5 →
        (∀ log ∈ am.m_db.userRecords username, log.action = ['l', 'o', 'g', 'i', 'n']
          ∧ log.success = false ∧ now - log.timestamp < 600) →
        AuthManager.checkBruteForce am now username ip = true)
    ∧ ((am.m_db.userRecords username).length ≤ 4 →
        AuthManager.checkBruteForce am now username ip = false)
    ∧ ((am.m_db.userRecords username).length = 5 →
        (∃ log ∈ am.m_db.userRecords username, 600 ≤ now - log.timestamp) →
        AuthManager.checkBruteForce am now username ip = false) := by
  have hfun : (fun log : LogEntry => log.action = ['l', 'o', 'g', 'i', 'n'] && !log.success
      && decide (now - log.timestamp < 600)) = recentFailedLogin now := by
    funext log; simp [recentFailedLogin]
  rw [hfun, checkBruteForce_eq]
  refine ⟨by simp, ?_, ?_, ?_⟩
  · intro hlen hall
    have hp := getUserLogs_perm am.m_db username 10 (by omega)
    rw [hp.countP_eq]
    have : (am.m_db.userRecords username).countP (recentFailedLogin now)
        = (am.m_db.userRecords username).length := by
      rw [List.countP_eq_length]
      intro log hlog
      obtain ⟨h1, h2, h3⟩ := hall log hlog
      simp [recentFailedLogin, h1, h2, h3]
    simp [this, hlen]
  · intro hlen
    have hp := getUserLogs_perm am.m_db username 10 (by omega)
    rw [hp.countP_eq]
    have := List.countP_le_length (recentFailedLogin now) (l := am.m_db.userRecords username)
    simp only [decide_eq_false_iff_not, not_le]
    omega
  · intro hlen hex
    have hp := getUserLogs_perm am.m_db username 10 (by omega)
    rw [hp.countP_eq]
    have hle := List.countP_le_length (recentFailedLogin now) (l := am.m_db.userRecords username)
    have hne : (am.m_db.userRecords username).countP (recentFailedLogin now)
        ≠ (am.m_db.userRecords username).length := by
      intro heq
      rw [List.countP_eq_length] at heq
      obtain ⟨log, hlog, hold⟩ := hex
      have := heq log hlog
      simp only [recentFailedLogin, Bool.and_eq_true, decide_eq_true_eq] at this
      omega
    simp only [decide_eq_false_iff_not, not_le]
    omega

/-- Insertion keeps a list ordered by `timestamp` descending. -/
theorem insertByTimestampDesc_sorted (l : LogEntry) (rows : List LogEntry)
    (h : rows.Pairwise (fun a b => b.timestamp ≤ a.timestamp)) :
    (insertByTimestampDesc l rows).Pairwise (fun a b => b.timestamp ≤ a.timestamp) := by
  induction rows with
  | nil => simp [insertByTimestampDesc]
  | cons x xs ih =>
    rw [List.pairwise_cons] at h
    simp only [insertByTimestampDesc]
    split
    · rename_i hlt
      rw [List.pairwise_cons]
      refine ⟨?_, List.pairwise_cons.mpr h⟩
      intro y hy
      rcases List.mem_cons.mp hy with rfl | hy'
      · omega
      · have := h.1 y hy'
        omega
    · rename_i hge
      rw [List.pairwise_cons]
      refine ⟨?_, ih h.2⟩
      intro y hy
      rcases List.mem_cons.mp ((insertByTimestampDesc_perm l xs).mem_iff.mp hy) with rfl | hy'
      · omega
      · exact h.1 y hy'

/-- The result of `ORDER BY timestamp DESC` is ordered by `timestamp` descending. -/
theorem orderByTimestampDesc_sorted (rows : List LogEntry) :
    (orderByTimestampDesc rows).Pairwise (fun a b => b.timestamp ≤ a.timestamp) := by
  induction rows with
  | nil => simp [orderByTimestampDesc]
  | cons x xs ih =>
    simp only [orderByTimestampDesc, List.foldr_cons]
    exact insertByTimestampDesc_sorted x _ ih

/-- In a list ordered by `timestamp` descending the rows at or after `t0` come first. -/
theorem sorted_split (rows : List LogEntry) (t0 : Int)
    (h : rows.Pairwise (fun a b => b.timestamp ≤ a.timestamp)) :
    rows = rows.filter (fun a => decide (t0 ≤ a.timestamp))
      ++ rows.filter (fun a => !decide (t0 ≤ a.timestamp)) := by
  induction rows with
  | nil => rfl
  | cons x xs ih =>
    rw [List.pairwise_cons] at h
    by_cases hx : t0 ≤ x.timestamp
    · simp only [List.filter_cons, hx, decide_True, if_true, Bool.not_true, Bool.false_eq_true,
        if_false, List.cons_append]
      rw [← ih h.2]
    · have hall : ∀ y ∈ xs, ¬ t0 ≤ y.timestamp := by
        intro y hy
        have := h.1 y hy
        omega
      have h1 : xs.filter (fun a => decide (t0 ≤ a.timestamp)) = [] := by
        rw [List.filter_eq_nil_iff]
        intro y hy
        simp [hall y hy]
      have h2 : xs.filter (fun a => !decide (t0 ≤ a.timestamp)) = xs := by
        rw [List.filter_eq_self]
        intro y hy
        simp [hall y hy]
      simp [List.filter_cons, hx, h1, h2]

theorem countP_le_countP_take_append (p : LogEntry → Bool) (a b : List LogEntry) (n : Nat)
    (h : a.length ≤ n) : a.countP p ≤ ((a ++ b).take n).countP p := by
  rw [List.take_append_eq_append_take, List.take_of_length_le h, List.countP_append]
  omega

/-- C10 (as amended): only the 10 most recent records of the username are read. Whenever, for
some time `t0`, at most 10 of the username's audit records have a timestamp at or after `t0` and
at least 5 of those are failed `login` records less than 600 seconds old, `checkBruteForce`
returns true, no matter how many older records the history holds and whatever the other records
are: successes appended after the failures do not reset the count, they only change the result
once they push failures out of the 10 most recent records. -/
theorem checkBruteForce_of_recent_failures (am : AuthManager) (now t0 : Int) (username ip : Str)
    (hlen : ((am.m_db.userRecords username).filter
      (fun log => decide (t0 ≤ log.timestamp))).length ≤ 10)
    (hfail : 5 ≤ ((am.m_db.userRecords username).filter
      (fun log => decide (t0 ≤ log.timestamp))).countP (recentFailedLogin now)) :
    AuthManager.checkBruteForce am now username ip = true := by
  rw [checkBruteForce_eq]
  have hperm := orderByTimestampDesc_perm (am.m_db.userRecords username)
  have hq := hperm.filter (fun log => decide (t0 ≤ log.timestamp))
  have hsplit := sorted_split _ t0 (orderByTimestampDesc_sorted (am.m_db.userRecords username))
  have hge := countP_le_countP_take_append (recentFailedLogin now)
    ((orderByTimestampDesc (am.m_db.userRecords username)).filter
      (fun a => decide (t0 ≤ a.timestamp)))
    ((orderByTimestampDesc (am.m_db.userRecords username)).filter
      (fun a => !decide (t0 ≤ a.timestamp))) 10 (by rw [hq.length_eq]; exact hlen)
  rw [← hsplit, hq.countP_eq] at hge
  have : 5 ≤ (am.m_db.getUserLogs username 10).countP (recentFailedLogin now) := by
    unfold Database.getUserLogs
    exact le_trans hfail hge
  simpa using this

/-- Witness of C9 at time 1000: five failed logins within the window give true; four give false;
five failed logins of which one is 660 seconds old give false. -/
theorem checkBruteForce_iff_witness :
    AuthManager.checkBruteForce
      (demoAuthWithLogs [loginRecord 900 false, loginRecord 910 false, loginRecord 920 false,
        loginRecord 930 false, loginRecord 940 false])
      1000 ['a', 'l', 'i', 'c', 'e'] [] = true ∧
    AuthManager.checkBruteForce
      (demoAuthWithLogs [loginRecord 900 false, loginRecord 910 false, loginRecord 920 false,
        loginRecord 930 false])
      1000 ['a', 'l', 'i', 'c', 'e'] [] = false ∧
    AuthManager.checkBruteForce
      (demoAuthWithLogs [loginRecord 340 false, loginRecord 910 false, loginRecord 920 false,
        loginRecord 930 false, loginRecord 940 false])
      1000 ['a', 'l', 'i', 'c', 'e'] [] = false :=
  ⟨(checkBruteForce_iff _ 1000 ['a', 'l', 'i', 'c', 'e'] []).2.1 (by decide) (by decide),
    (checkBruteForce_iff _ 1000 ['a', 'l', 'i', 'c', 'e'] []).2.2.1 (by decide),
    (checkBruteForce_iff _ 1000 ['a', 'l', 'i', 'c', 'e'] []).2.2.2 (by decide) (by decide)⟩

/-- Witness of C10 at time 1000, with `t0 = 900`: eleven old successful logins (times 100 to
110), then five failed logins (900 to 940), then five successful ones (950 to 954): 21 records,
of which the ten from time 900 on hold the five failures. -/
theorem checkBruteForce_of_recent_failures_witness :
    AuthManager.checkBruteForce
      (demoAuthWithLogs [loginRecord 100 true, loginRecord 101 true, loginRecord 102 true,
        loginRecord 103 true, loginRecord 104 true, loginRecord 105 true, loginRecord 106 true,
        loginRecord 107 true, loginRecord 108 true, loginRecord 109 true, loginRecord 110 true,
        loginRecord 900 false, loginRecord 910 false, loginRecord 920 false,
        loginRecord 930 false, loginRecord 940 false, loginRecord 950 true, loginRecord 951 true,
        loginRecord 952 true, loginRecord 953 true, loginRecord 954 true])
      1000 ['a', 'l', 'i', 'c', 'e'] [] = true :=
  checkBruteForce_of_recent_failures _ 1000 900 ['a', 'l', 'i', 'c', 'e'] [] (by decide)
    (by decide)

/-- C10 (counterexample): at time 1000 the history of `alice` holds five failed logins from
times 900 to 940, all within the last 10 minutes, followed by ten successful logins; the ten most
recent records are the successes and `checkBruteForce` returns false. -/
theorem checkBruteForce_of_recent_failures_counterexample :
    5 ≤ ((demoAuthWithLogs [loginRecord 900 false, loginRecord 910 false, loginRecord 920 false,
        loginRecord 930 false, loginRecord 940 false, loginRecord 950 true, loginRecord 951 true,
        loginRecord 952 true, loginRecord 953 true, loginRecord 954 true, loginRecord 955 true,
        loginRecord 956 true, loginRecord 957 true, loginRecord 958 true,
        loginRecord 959 true]).m_db.userRecords ['a', 'l', 'i', 'c', 'e']).countP
          (recentFailedLogin 1000) ∧
    AuthManager.checkBruteForce
      (demoAuthWithLogs [loginRecord 900 false, loginRecord 910 false, loginRecord 920 false,
        loginRecord 930 false, loginRecord 940 false, loginRecord 950 true, loginRecord 951 true,
        loginRecord 952 true, loginRecord 953 true, loginRecord 954 true, loginRecord 955 true,
        loginRecord 956 true, loginRecord 957 true, loginRecord 958 true, loginRecord 959 true])
      1000 ['a', 'l', 'i', 'c', 'e'] [] = false := by
  decide

/-! ## Lemmas on `loginUser` -/

/-- Writing an audit record leaves the `users` table alone. -/
theorem logAttempt_users (s : AuthServer) (now : Int) (username hwid : Str) (success : Bool) :
    (s.logAttempt now username hwid success).m_database.users = s.m_database.users := rfl

/-- Writing an audit record appends exactly that record to `logs`. -/
theorem logAttempt_logs (s : AuthServer) (now : Int) (username hwid : Str) (success : Bool) :
    (s.logAttempt now username hwid success).m_database.logs
      = s.m_database.logs ++
        [{ id := nextId (s.m_database.logs.map (·.id)), username := username,
           action := ['l', 'o', 'g', 'i', 'n'], ip := ['u', 'n', 'k', 'n', 'o', 'w', 'n'],
           hwid := hwid, timestamp := now, success := success }] := rfl

/-- The return value of `loginUser`: the five checks, in the order of the code. The audit log is
not among them. -/
theorem loginUser_result (c : Crypto) (r : Bytes 16) (s : AuthServer) (now : Int)
    (username password hwid token : Str) :
    (AuthServer.loginUser c r s now username password hwid token).1 = true ↔
      (s.m_database.getUserByUsername username).id ≠ 0
      ∧ (s.m_database.getUserByUsername username).isBanned = false
      ∧ AuthManager.verifyPassword c r password
          (s.m_database.getUserByUsername username).passwordHash = true
      ∧ ((s.m_database.getUserByUsername username).subscriptionEnd = 0
          ∨ now ≤ (s.m_database.getUserByUsername username).subscriptionEnd)
      ∧ ((s.m_database.getUserByUsername username).hwid = []
          ∨ (s.m_database.getUserByUsername username).hwid = hwid) := by
  generalize hu : s.m_database.getUserByUsername username = user
  simp only [AuthServer.loginUser, hu]
  by_cases h1 : user.id = 0
  · simp [h1]
  · cases h2 : user.isBanned
    · cases h3 : AuthManager.verifyPassword c r password user.passwordHash
      · simp [h1]
      · by_cases h4 : user.subscriptionEnd < now ∧ user.subscriptionEnd ≠ 0
        · have h4' : ¬ (user.subscriptionEnd = 0 ∨ now ≤ user.subscriptionEnd) := by omega
          simp [h1, h4.1, h4.2, h4']
        · have h4' : (user.subscriptionEnd = 0 ∨ now ≤ user.subscriptionEnd) := by omega
          have h4'' : ¬ (user.subscriptionEnd < now ∧ ¬ user.subscriptionEnd = 0) := h4
          by_cases h5 : user.hwid = []
          · simp [h1, h4', h4'', h5]
          · by_cases h6 : user.hwid = hwid
            · simp [h1, h4', h4'', h6]
            · simp [h1, h4', h4'', h5, h6, isEmpty_eq_false]
    · simp [h1]

/-! ## C11: the brute-force guard and `loginUser` -/

/-- C11 (the code at the failing input): at time 1000 `alice` has five failed `login` records
from the last 10 minutes and `checkBruteForce` says block, yet `loginUser` with the correct
password and the matching hwid returns true and writes a session token: `loginUser` never calls
`checkBruteForce` (its return value does not depend on the audit log, `loginUser_result`). -/
theorem loginUser_not_guarded :
    AuthManager.checkBruteForce
      (demoServer [loginRecord 900 false, loginRecord 910 false, loginRecord 920 false,
        loginRecord 930 false, loginRecord 940 false]).m_authManager
      1000 ['a', 'l', 'i', 'c', 'e'] ['u', 'n', 'k', 'n', 'o', 'w', 'n'] = true ∧
    (AuthServer.loginUser demoCrypto demoRandom
      (demoServer [loginRecord 900 false, loginRecord 910 false, loginRecord 920 false,
        loginRecord 930 false, loginRecord 940 false])
      1000 ['a', 'l', 'i', 'c', 'e'] ['p', 'w', '1'] ['H', 'W', '1'] []).1 = true ∧
    (AuthServer.loginUser demoCrypto demoRandom
      (demoServer [loginRecord 900 false, loginRecord 910 false, loginRecord 920 false,
        loginRecord 930 false, loginRecord 940 false])
      1000 ['a', 'l', 'i', 'c', 'e'] ['p', 'w', '1'] ['H', 'W', '1'] []).2.1
      = AuthManager.generateToken demoCrypto (demoServer []).m_authManager 1000
          ['a', 'l', 'i', 'c', 'e'] ['H', 'W', '1'] := by
  decide

/-! ## C12: one audit record per login attempt -/

/-- C12: every call of `loginUser`, whatever path it takes, appends exactly one record to the
audit log; the record carries the presented username and hwid, the action `login`, the time of
the call and a success flag equal to the value `loginUser` returns. -/
theorem loginUser_appends_one_record (c : Crypto) (r : Bytes 16) (s : AuthServer) (now : Int)
    (username password hwid token : Str) :
    (AuthServer.loginUser c r s now username password hwid token).2.2.m_database.logs
      = s.m_database.logs ++
        [{ id := nextId (s.m_database.logs.map (·.id)), username := username,
           action := ['l', 'o', 'g', 'i', 'n'], ip := ['u', 'n', 'k', 'n', 'o', 'w', 'n'],
           hwid := hwid, timestamp := now,
           success := (AuthServer.loginUser c r s now username password hwid token).1 }] := by
  simp only [AuthServer.loginUser]
  split_ifs <;> simp only [logAttempt_logs] <;> rfl

/-! ## C13 and C14: hwid binding and subscription gating in `loginUser` -/

/-- Looking a username up after an `UPDATE` that keeps the usernames. -/
theorem find?_username_map (rows : List UserData) (f : UserData → UserData) (v : Str)
    (hf : ∀ u, (f u).username = u.username) :
    (rows.map f).find? (fun u => u.username = v)
      = (rows.find? (fun u => u.username = v)).map f := by
  induction rows with
  | nil => rfl
  | cons x xs ih =>
    by_cases hx : x.username = v
    · simp [List.find?_cons, hf, hx]
    · simp [List.find?_cons, hf, hx, ih]

theorem withDatabase_m_database (s : AuthServer) (db : Database) :
    (s.withDatabase db).m_database = db := rfl

/-- The function `loginUser` as one case distinction: success with the token and the writes, or
failure with the token untouched; one audit record either way. -/
theorem loginUser_eq (c : Crypto) (r : Bytes 16) (s : AuthServer) (now : Int)
    (username password hwid token : Str) :
    AuthServer.loginUser c r s now username password hwid token
      = if AuthServer.loginChecks c r s now username password hwid = true then
          (true,
            AuthManager.generateToken c (s.afterLoginWrites now username hwid).m_authManager now
              username hwid,
            (s.afterLoginWrites now username hwid).logAttempt now username hwid true)
        else (false, token, s.logAttempt now username hwid false) := by
  simp only [AuthServer.loginUser, AuthServer.loginChecks, AuthServer.afterLoginWrites]
  generalize s.m_database.getUserByUsername username = user
  by_cases h1 : user.id = 0
  · simp [h1]
  · cases h2 : user.isBanned
    · cases h3 : AuthManager.verifyPassword c r password user.passwordHash
      · simp [h1]
      · by_cases h4 : user.subscriptionEnd < now ∧ ¬ user.subscriptionEnd = 0
        · simp [h1, h4]
        · have h4' : now ≤ user.subscriptionEnd ∨ user.subscriptionEnd = 0 := by omega
          by_cases h5 : user.hwid = []
          · simp [h1, h4, h4', h5]
          · by_cases h6 : user.hwid = hwid
            · have h5' : ¬ hwid = [] := h6 ▸ h5
              simp [h1, h4, h4', h5', h6, isEmpty_eq_false]
            · simp [h1, h4, h5, h6, isEmpty_eq_false]
    · simp [h1]

theorem loginChecks_iff (c : Crypto) (r : Bytes 16) (s : AuthServer) (now : Int)
    (username password hwid : Str) :
    AuthServer.loginChecks c r s now username password hwid = true ↔
      (s.m_database.getUserByUsername username).id ≠ 0
      ∧ (s.m_database.getUserByUsername username).isBanned = false
      ∧ AuthManager.verifyPassword c r password
          (s.m_database.getUserByUsername username).passwordHash = true
      ∧ ((s.m_database.getUserByUsername username).subscriptionEnd = 0
          ∨ now ≤ (s.m_database.getUserByUsername username).subscriptionEnd)
      ∧ ((s.m_database.getUserByUsername username).hwid = []
          ∨ (s.m_database.getUserByUsername username).hwid = hwid) := by
  have := loginUser_result c r s now username password hwid []
  rw [loginUser_eq] at this
  rw [← this]
  by_cases h : AuthServer.loginChecks c r s now username password hwid = true <;> simp [h]

/-- The `users` table after the writes of a successful login. -/
theorem afterLoginWrites_users (s : AuthServer) (now : Int) (username hwid : Str) :
    (s.afterLoginWrites now username hwid).m_database.users
      = s.m_database.users.map (fun u =>
          if u.username = username then
            { u with
              hwid := if (s.m_database.getUserByUsername username).hwid = [] then hwid
                      else u.hwid,
              lastLoginDate := now }
          else u) := by
  unfold AuthServer.afterLoginWrites
  by_cases h5 : (s.m_database.getUserByUsername username).hwid = []
  · simp only [h5, List.isEmpty_nil, if_true, withDatabase_m_database, Database.updateHWID,
      Database.updateLastLogin, List.map_map]
    apply List.map_congr_left
    intro u _
    by_cases hx : u.username = username <;> simp [hx]
  · simp only [h5, isEmpty_eq_false h5, Bool.false_eq_true, if_false, withDatabase_m_database,
      Database.updateLastLogin]

theorem loginUser_fst (c : Crypto) (r : Bytes 16) (s : AuthServer) (now : Int)
    (username password hwid token : Str) :
    (AuthServer.loginUser c r s now username password hwid token).1
      = AuthServer.loginChecks c r s now username password hwid := by
  rw [loginUser_eq]
  by_cases h : AuthServer.loginChecks c r s now username password hwid = true <;> simp [h]

/-- The stored hwid of any account `v` after `loginUser`: the presented hwid when the login
succeeded, `v` is the account logged in and its stored hwid was empty; the old one otherwise. -/
theorem loginUser_hwid_after (c : Crypto) (r : Bytes 16) (s : AuthServer) (now : Int)
    (username password hwid token v : Str) :
    ((AuthServer.loginUser c r s now username password hwid token).2.2.m_database.getUserByUsername
        v).hwid
      = if AuthServer.loginChecks c r s now username password hwid = true ∧ v = username
            ∧ (s.m_database.getUserByUsername username).hwid = [] then hwid
        else (s.m_database.getUserByUsername v).hwid := by
  rw [loginUser_eq]
  by_cases hc : AuthServer.loginChecks c r s now username password hwid = true
  · have hid := ((loginChecks_iff c r s now username password hwid).mp hc).1
    simp only [hc, if_true, true_and]
    unfold Database.getUserByUsername at hid ⊢
    rw [logAttempt_users, afterLoginWrites_users,
      find?_username_map _ _ v (by intro u; by_cases hx : u.username = username <;> simp [hx])]
    by_cases hv : v = username
    · subst hv
      cases hfind : s.m_database.users.find? (fun u => u.username = v) with
      | none => rw [hfind] at hid; exact absurd rfl hid
      | some u =>
        have huv : u.username = v := by
          have := List.find?_some hfind
          simpa using this
        unfold Database.getUserByUsername
        simp only [hfind, Option.map_some', huv, if_true, true_and]
    · simp only [hv, false_and, if_false]
      cases hfind : s.m_database.users.find? (fun u => u.username = v) with
      | none => rfl
      | some u =>
        have huv : u.username = v := by
          have := List.find?_some hfind
          simpa using this
        have hne : ¬ u.username = username := by rw [huv]; exact hv
        simp [hne]
  · simp only [hc, Bool.false_eq_true, if_false, false_and]
    unfold Database.getUserByUsername
    rw [logAttempt_users]

/-- C13: `loginUser` never changes a hwid that is already bound. If the account's stored hwid is
non-empty and differs from the presented hwid, `loginUser` fails and the stored hwid is
unchanged; if it is non-empty and equal, it stays the same; when the stored hwid is empty, a
successful login binds it to exactly the presented hwid and a failed one leaves it empty; and
no account with a non-empty stored hwid has it changed by any call. -/
theorem loginUser_hwid_binding (c : Crypto) (r : Bytes 16) (s : AuthServer) (now : Int)
    (username password hwid token : Str) :
    ((s.m_database.getUserByUsername username).hwid ≠ [] →
      (s.m_database.getUserByUsername username).hwid ≠ hwid →
        (AuthServer.loginUser c r s now username password hwid token).1 = false
        ∧ ((AuthServer.loginUser c r s now username password hwid
            token).2.2.m_database.getUserByUsername username).hwid
          = (s.m_database.getUserByUsername username).hwid)
    ∧ ((s.m_database.getUserByUsername username).hwid ≠ [] →
      (s.m_database.getUserByUsername username).hwid = hwid →
        ((AuthServer.loginUser c r s now username password hwid
            token).2.2.m_database.getUserByUsername username).hwid
          = (s.m_database.getUserByUsername username).hwid)
    ∧ ((s.m_database.getUserByUsername username).hwid = [] →
        ((AuthServer.loginUser c r s now username password hwid
            token).2.2.m_database.getUserByUsername username).hwid
          = if (AuthServer.loginUser c r s now username password hwid token).1 = true then hwid
            else [])
    ∧ (∀ v : Str, (s.m_database.getUserByUsername v).hwid ≠ [] →
        ((AuthServer.loginUser c r s now username password hwid
            token).2.2.m_database.getUserByUsername v).hwid
          = (s.m_database.getUserByUsername v).hwid) := by
  refine ⟨?_, ?_, ?_, ?_⟩
  · intro h1 h2
    have hf : AuthServer.loginChecks c r s now username password hwid = false := by
      cases hc : AuthServer.loginChecks c r s now username password hwid
      · rfl
      · have := ((loginChecks_iff c r s now username password hwid).mp hc).2.2.2.2
        rcases this with h | h
        · exact absurd h h1
        · exact absurd h h2
    rw [loginUser_hwid_after, loginUser_fst, hf]
    simp
  · intro h1 _
    rw [loginUser_hwid_after]
    simp [h1]
  · intro h1
    rw [loginUser_hwid_after, loginUser_fst]
    simp [h1]
  · intro v hv
    rw [loginUser_hwid_after]
    by_cases hvu : v = username
    · subst hvu
      simp [hv]
    · simp [hvu]

/-- Witness of C13: `alice`, bound to `HW1`, presents `HW2` (fails, stays `HW1`) and `HW1`
(stays `HW1`); `bob`, not bound, logs in from `HW9` and is bound to `HW9`. -/
theorem loginUser_hwid_binding_witness :
    ((AuthServer.loginUser demoCrypto demoRandom (demoServer []) 1000 ['a', 'l', 'i', 'c', 'e']
        ['p', 'w', '1'] ['H', 'W', '2'] []).1 = false
      ∧ ((AuthServer.loginUser demoCrypto demoRandom (demoServer []) 1000
          ['a', 'l', 'i', 'c', 'e'] ['p', 'w', '1'] ['H', 'W', '2']
          []).2.2.m_database.getUserByUsername ['a', 'l', 'i', 'c', 'e']).hwid
        = ((demoServer []).m_database.getUserByUsername ['a', 'l', 'i', 'c', 'e']).hwid)
    ∧ ((AuthServer.loginUser demoCrypto demoRandom (demoServer []) 1000
          ['a', 'l', 'i', 'c', 'e'] ['p', 'w', '1'] ['H', 'W', '1']
          []).2.2.m_database.getUserByUsername ['a', 'l', 'i', 'c', 'e']).hwid
        = ((demoServer []).m_database.getUserByUsername ['a', 'l', 'i', 'c', 'e']).hwid
    ∧ ((AuthServer.loginUser demoCrypto demoRandom (demoServer []) 1000 ['b', 'o', 'b']
          ['p', 'w', '2'] ['H', 'W', '9'] []).2.2.m_database.getUserByUsername
          ['b', 'o', 'b']).hwid = ['H', 'W', '9'] :=
  ⟨(loginUser_hwid_binding demoCrypto demoRandom (demoServer []) 1000 ['a', 'l', 'i', 'c', 'e']
      ['p', 'w', '1'] ['H', 'W', '2'] []).1 (by decide) (by decide),
    (loginUser_hwid_binding demoCrypto demoRandom (demoServer []) 1000 ['a', 'l', 'i', 'c', 'e']
      ['p', 'w', '1'] ['H', 'W', '1'] []).2.1 (by decide) (by decide),
    ((loginUser_hwid_binding demoCrypto demoRandom (demoServer []) 1000 ['b', 'o', 'b']
      ['p', 'w', '2'] ['H', 'W', '9'] []).2.2.1 (by decide)).trans (by decide)⟩

/-- C14: subscription gating in `loginUser`. For an existing, non-banned account presented with
the correct password and a matching or unbound hwid, `loginUser` succeeds exactly when
`subscriptionEnd` is 0 or not earlier than the current time, and fails exactly when
`subscriptionEnd` is non-zero and earlier than the current time. -/
theorem loginUser_subscription (c : Crypto) (r : Bytes 16) (s : AuthServer) (now : Int)
    (username password hwid token : Str)
    (hexists : (s.m_database.getUserByUsername username).id ≠ 0)
    (hban : (s.m_database.getUserByUsername username).isBanned = false)
    (hpw : AuthManager.verifyPassword c r password
      (s.m_database.getUserByUsername username).passwordHash = true)
    (hhwid : (s.m_database.getUserByUsername username).hwid = []
      ∨ (s.m_database.getUserByUsername username).hwid = hwid) :
    ((AuthServer.loginUser c r s now username password hwid token).1 = true ↔
      (s.m_database.getUserByUsername username).subscriptionEnd = 0
      ∨ now ≤ (s.m_database.getUserByUsername username).subscriptionEnd)
    ∧ ((AuthServer.loginUser c r s now username password hwid token).1 = false ↔
      (s.m_database.getUserByUsername username).subscriptionEnd ≠ 0
      ∧ (s.m_database.getUserByUsername username).subscriptionEnd < now) := by
  have key := loginUser_result c r s now username password hwid token
  constructor
  · rw [key]
    exact ⟨fun h => h.2.2.2.1, fun h => ⟨hexists, hban, hpw, h, hhwid⟩⟩
  · rw [← Bool.not_eq_true, key]
    constructor
    · intro h
      by_contra hcon
      exact h ⟨hexists, hban, hpw, by omega, hhwid⟩
    · intro h hall
      have := hall.2.2.2.1
      omega

/-- Witness of C14 at time 1000: `alice` with `subscriptionEnd = 0` logs in; with
`subscriptionEnd = 500` she does not. -/
theorem loginUser_subscription_witness :
    (AuthServer.loginUser demoCrypto demoRandom (demoServer []) 1000 ['a', 'l', 'i', 'c', 'e']
      ['p', 'w', '1'] ['H', 'W', '1'] []).1 = true
    ∧ (AuthServer.loginUser demoCrypto demoRandom
        ((demoServer []).withDatabase ((demoServer []).m_database.updateUser
          { (demoServer []).m_database.getUserByUsername ['a', 'l', 'i', 'c', 'e'] with
            subscriptionEnd := 500 }).2)
        1000 ['a', 'l', 'i', 'c', 'e'] ['p', 'w', '1'] ['H', 'W', '1'] []).1 = false :=
  ⟨(loginUser_subscription demoCrypto demoRandom (demoServer []) 1000 ['a', 'l', 'i', 'c', 'e']
      ['p', 'w', '1'] ['H', 'W', '1'] [] (by decide) (by decide) (by decide) (by decide)).1.mpr
      (by decide),
    (loginUser_subscription demoCrypto demoRandom _ 1000 ['a', 'l', 'i', 'c', 'e']
      ['p', 'w', '1'] ['H', 'W', '1'] [] (by decide) (by decide) (by decide) (by decide)).2.mpr
      (by decide)⟩

/-! ## C15: `registerUser` -/

/-- A hash made with a freshly generated salt verifies against its password. -/
theorem verifyPassword_fresh_salt (c : Crypto) (r r' : Bytes 16) (p : Str) :
    AuthManager.verifyPassword c r' p (AuthManager.hashPassword c r p []) = true := by
  obtain ⟨salt, hsalt, _, hne, hdollar⟩ := hashPassword_shape c r p [] (by simp)
  rw [hsalt]
  simp [AuthManager.verifyPassword, find_append_cons _ _ _ hdollar, substr0,
    AuthManager.hashPassword, isEmpty_eq_false hne]

theorem nextId_pos (ids : List Int) : nextId ids ≠ 0 := by
  have key : ∀ (l : List Int) (a : Int), 0 ≤ a → 0 ≤ l.foldl max a := by
    intro l
    induction l with
    | nil => intro a ha; simpa using ha
    | cons x xs ih => intro a ha; exact ih _ (le_max_of_le_left ha)
  have := key ids 0 (le_refl 0)
  unfold nextId
  omega

theorem find?_eq_none_of_forall {rows : List UserData} {p : UserData → Bool}
    (h : ∀ u ∈ rows, p u = false) : rows.find? p = none := by
  rw [List.find?_eq_none]
  intro u hu
  simp [h u hu]

/-- C15 (as amended): `registerUser` fails and leaves the server unchanged when a row with the
same username or the same e-mail is already in `users`; otherwise it succeeds and appends exactly
one account, which has the given username, e-mail and hwid, a password hash that verifies
against the given password, `lastLoginDate = 0`, `subscriptionEnd = 0`, no ban, and the time of
the call as `registrationDate`. -/
theorem registerUser_spec (c : Crypto) (r r' : Bytes 16) (s : AuthServer) (now : Int)
    (username password email hwid : Str) :
    ((∃ u ∈ s.m_database.users, u.username = username ∨ u.email = email) →
      AuthServer.registerUser c r s now username password email hwid = (false, s))
    ∧ ((∀ u ∈ s.m_database.users, u.username ≠ username ∧ u.email ≠ email) →
      ∃ newUser : UserData,
        AuthServer.registerUser c r s now username password email hwid
          = (true, s.withDatabase
              { users := s.m_database.users ++ [newUser], logs := s.m_database.logs })
        ∧ newUser.id ≠ 0 ∧ newUser.username = username ∧ newUser.email = email
        ∧ newUser.hwid = hwid
        ∧ AuthManager.verifyPassword c r' password newUser.passwordHash = true
        ∧ newUser.registrationDate = now ∧ newUser.lastLoginDate = 0
        ∧ newUser.subscriptionEnd = 0 ∧ newUser.isBanned = false) := by
  constructor
  · rintro ⟨u, hu, hsame⟩
    have hany : s.m_database.users.any
        (fun u => decide (u.username = username) || decide (u.email = email)) = true := by
      rw [List.any_eq_true]
      exact ⟨u, hu, by simpa using hsame⟩
    simp only [AuthServer.registerUser, Database.addUser, hany, if_true, Bool.not_false]
    split_ifs <;> rfl
  · intro hnone
    have h1 : s.m_database.users.find? (fun u => u.username = username) = none :=
      find?_eq_none_of_forall (fun u hu => by simpa using (hnone u hu).1)
    have h2 : s.m_database.users.find? (fun u => u.email = email) = none :=
      find?_eq_none_of_forall (fun u hu => by simpa using (hnone u hu).2)
    have hany : s.m_database.users.any
        (fun u => decide (u.username = username) || decide (u.email = email)) = false := by
      rw [List.any_eq_false]
      intro u hu
      have := hnone u hu
      simp [this.1, this.2]
    refine ⟨{ id := nextId (s.m_database.users.map (·.id)), username := username,
              passwordHash := AuthManager.hashPassword c r password [], email := email,
              hwid := hwid, registrationDate := now, lastLoginDate := 0, subscriptionEnd := 0,
              isBanned := false, banReason := [] }, ?_, nextId_pos _, rfl, rfl, rfl,
            verifyPassword_fresh_salt c r r' password, rfl, rfl, rfl, rfl⟩
    simp [AuthServer.registerUser, Database.getUserByUsername, Database.getUserByEmail, h1, h2,
      UserData.notFound, Database.addUser, hany]

/-- Witness of C15: registering `alice` again fails; registering `carol` adds her account. -/
theorem registerUser_spec_witness :
    AuthServer.registerUser demoCrypto demoRandom (demoServer []) 1000 ['a', 'l', 'i', 'c', 'e']
      ['p', 'w', '9'] ['z', '@', 'x', '.', 'c', 'o', 'm'] ['H', 'W', '9'] = (false, demoServer [])
    ∧ ∃ newUser : UserData,
        AuthServer.registerUser demoCrypto demoRandom (demoServer []) 1000
            ['c', 'a', 'r', 'o', 'l'] ['p', 'w', '3'] ['c', '@', 'x', '.', 'c', 'o', 'm']
            ['H', 'W', '3']
          = (true, (demoServer []).withDatabase
              { users := (demoServer []).m_database.users ++ [newUser],
                logs := (demoServer []).m_database.logs })
        ∧ newUser.id ≠ 0 ∧ newUser.username = ['c', 'a', 'r', 'o', 'l']
        ∧ newUser.email = ['c', '@', 'x', '.', 'c', 'o', 'm']
        ∧ newUser.hwid = ['H', 'W', '3']
        ∧ AuthManager.verifyPassword demoCrypto demoRandom ['p', 'w', '3'] newUser.passwordHash
            = true
        ∧ newUser.registrationDate = 1000 ∧ newUser.lastLoginDate = 0
        ∧ newUser.subscriptionEnd = 0 ∧ newUser.isBanned = false :=
  ⟨(registerUser_spec demoCrypto demoRandom demoRandom (demoServer []) 1000
      ['a', 'l', 'i', 'c', 'e'] ['p', 'w', '9'] ['z', '@', 'x', '.', 'c', 'o', 'm']
      ['H', 'W', '9']).1 (by decide),
    (registerUser_spec demoCrypto demoRandom demoRandom (demoServer []) 1000
      ['c', 'a', 'r', 'o', 'l'] ['p', 'w', '3'] ['c', '@', 'x', '.', 'c', 'o', 'm']
      ['H', 'W', '3']).2 (by decide)⟩

/-- C15 (counterexample): the account `registerUser` adds at time 1000 has the registration
timestamp 1000, not 0. -/
theorem registerUser_spec_counterexample :
    (AuthServer.registerUser demoCrypto demoRandom (demoServer []) 1000
      ['c', 'a', 'r', 'o', 'l'] ['p', 'w', '3'] ['c', '@', 'x', '.', 'c', 'o', 'm']
      ['H', 'W', '3']).1 = true
    ∧ ((AuthServer.registerUser demoCrypto demoRandom (demoServer []) 1000
        ['c', 'a', 'r', 'o', 'l'] ['p', 'w', '3'] ['c', '@', 'x', '.', 'c', 'o', 'm']
        ['H', 'W', '3']).2.m_database.getUserByUsername
          ['c', 'a', 'r', 'o', 'l']).registrationDate = 1000 := by
  decide

/-! ## C16, C17 and C18: password reset -/

/-- The row update `Database::updateUser` applies after `resetPassword` has set the new hash in
the record it read. -/
theorem updateUser_users (db : Database) (user : UserData) :
    (db.updateUser user).2.users = db.users.map (fun u =>
      if u.id = user.id then
        { u with passwordHash := user.passwordHash, email := user.email, hwid := user.hwid,
                 lastLoginDate := user.lastLoginDate, subscriptionEnd := user.subscriptionEnd,
                 isBanned := user.isBanned, banReason := user.banReason }
      else u) := rfl

/-- The function `AuthManager::resetPassword` in terms of the validator and the username field. -/
theorem resetPassword_eq (c : Crypto) (r : Bytes 16) (am : AuthManager) (now : Int)
    (token newPassword : Str) :
    AuthManager.resetPassword c r am now token newPassword =
      match AuthManager.validatePasswordResetToken c am now token with
      | Except.error e => Except.error e
      | Except.ok valid =>
        if valid = false then Except.ok (false, am)
        else if (am.m_db.getUserByUsername (resetFields token).1).id = 0 then Except.ok (false, am)
        else Except.ok (true, { am with m_db := (am.m_db.updateUser
          { am.m_db.getUserByUsername (resetFields token).1 with
            passwordHash := AuthManager.hashPassword c r newPassword [] }).2 }) := by
  unfold AuthManager.resetPassword
  cases AuthManager.validatePasswordResetToken c am now token with
  | error e => rfl
  | ok valid =>
    cases valid
    · rfl
    · simp only [Bool.not_true, Bool.false_eq_true, if_false, resetFields, Bool.true_eq_false]
      split_ifs <;> rfl

/-- The function `validatePasswordResetToken` accepts a string exactly when the three fields it
reads are non-empty, the expiry text reads as a number not before `now`, and the signature field
is the MAC of `username|expiry`. -/
theorem validatePasswordResetToken_accept_iff (c : Crypto) (am : AuthManager) (now : Int)
    (token : Str) :
    AuthManager.validatePasswordResetToken c am now token = Except.ok true ↔
      ((resetFields token).1 ≠ [] ∧ (resetFields token).2.1 ≠ [] ∧ (resetFields token).2.2 ≠ [])
      ∧ (∃ expiry, stoll (resetFields token).2.1 = Except.ok expiry ∧ now ≤ expiry)
      ∧ (resetFields token).2.2 = AuthManager.signData c am
          (join2 (resetFields token).1 (resetFields token).2.1) := by
  rw [validatePasswordResetToken_eq]
  generalize resetFields token = f
  obtain ⟨u, e, s⟩ := f
  simp only
  cases hst : stoll e with
  | error err =>
    by_cases h1 : u = [] <;> by_cases h3 : e = [] <;> by_cases h4 : s = [] <;>
      simp [h1, h3, h4, isEmpty_eq_false]
  | ok x =>
    by_cases h1 : u = [] <;> by_cases h3 : e = [] <;> by_cases h4 : s = [] <;>
      simp [h1, h3, h4, isEmpty_eq_false]
    by_cases h5 : x < now
    · simp [h5]
    · simp [h5, not_lt.mp h5]

/-- The validators use the manager only through its key. -/
theorem validatePasswordResetToken_key (c : Crypto) (am am' : AuthManager) (now : Int)
    (token : Str) (hkey : am'.m_secretKey = am.m_secretKey) :
    AuthManager.validatePasswordResetToken c am' now token
      = AuthManager.validatePasswordResetToken c am now token := by
  simp only [AuthManager.validatePasswordResetToken, AuthManager.signData, hkey]

/-- Looking a username up after `updateUser`. -/
theorem getUserByUsername_updateUser (db : Database) (user : UserData) (v : Str) :
    (db.updateUser user).2.getUserByUsername v
      = if (db.users.find? (fun u => u.username = v)).isSome then
          (if (db.getUserByUsername v).id = user.id then
            { db.getUserByUsername v with
              passwordHash := user.passwordHash, email := user.email, hwid := user.hwid,
              lastLoginDate := user.lastLoginDate, subscriptionEnd := user.subscriptionEnd,
              isBanned := user.isBanned, banReason := user.banReason }
          else db.getUserByUsername v)
        else UserData.notFound := by
  unfold Database.getUserByUsername
  rw [updateUser_users, find?_username_map _ _ v (by intro u; split <;> rfl)]
  cases db.users.find? (fun u => u.username = v) with
  | none => rfl
  | some u => rfl

theorem getUserByUsername_found (db : Database) (v : Str)
    (h : (db.getUserByUsername v).id ≠ 0) :
    (db.users.find? (fun u => u.username = v)).isSome = true := by
  unfold Database.getUserByUsername at h
  cases hfind : db.users.find? (fun u => u.username = v) with
  | none => rw [hfind] at h; exact absurd rfl h
  | some u => rfl

/-- C17 (as amended): a reset token is not used up by a password change. After
`resetPassword(t, pw1)` has succeeded, a second call `resetPassword(t, pw2)` with the same token,
made no later than the expiry epoch embedded in the token, succeeds as well and replaces the
stored password hash by one that verifies against `pw2`. -/
theorem resetPassword_reusable (c : Crypto) (r r' r'' : Bytes 16) (am am1 : AuthManager)
    (now now' expiry : Int) (token pw1 pw2 : Str)
    (hfirst : AuthManager.resetPassword c r am now token pw1 = Except.ok (true, am1))
    (hexp : stoll (resetFields token).2.1 = Except.ok expiry) (hnow' : now' ≤ expiry) :
    ∃ am2, AuthManager.resetPassword c r' am1 now' token pw2 = Except.ok (true, am2)
      ∧ AuthManager.verifyPassword c r'' pw2
          (am2.m_db.getUserByUsername (resetFields token).1).passwordHash = true := by
  rw [resetPassword_eq] at hfirst
  cases hv : AuthManager.validatePasswordResetToken c am now token with
  | error e => rw [hv] at hfirst; exact Except.noConfusion hfirst
  | ok valid =>
    rw [hv] at hfirst
    cases valid with
    | false => simp at hfirst
    | true =>
      by_cases hid : (am.m_db.getUserByUsername (resetFields token).1).id = 0
      · simp [hid] at hfirst
      · simp only [Bool.true_eq_false, if_false, hid, Except.ok.injEq, Prod.mk.injEq,
          true_and] at hfirst
        subst hfirst
        -- the token is still valid: same key, and `now'` is not after the expiry
        obtain ⟨hne, ⟨e0, he0, _⟩, hsig⟩ :=
          (validatePasswordResetToken_accept_iff c am now token).mp hv
        have hv' : AuthManager.validatePasswordResetToken c
            { am with m_db := (am.m_db.updateUser
              { am.m_db.getUserByUsername (resetFields token).1 with
                passwordHash := AuthManager.hashPassword c r pw1 [] }).2 } now' token
            = Except.ok true := by
          refine (validatePasswordResetToken_key c am _ now' token rfl).trans ?_
          exact (validatePasswordResetToken_accept_iff c am now' token).mpr
            ⟨hne, ⟨expiry, hexp, hnow'⟩, hsig⟩
        have hfound := getUserByUsername_found _ _ hid
        have hid' : ¬ ((am.m_db.updateUser
            { am.m_db.getUserByUsername (resetFields token).1 with
              passwordHash := AuthManager.hashPassword c r pw1 [] }).2.getUserByUsername
              (resetFields token).1).id = 0 := by
          rw [getUserByUsername_updateUser]
          simp [hfound, hid]
        have hsecond := resetPassword_eq c r'
          { am with m_db := (am.m_db.updateUser
            { am.m_db.getUserByUsername (resetFields token).1 with
              passwordHash := AuthManager.hashPassword c r pw1 [] }).2 } now' token pw2
        rw [hv'] at hsecond
        simp only [Bool.true_eq_false, if_false, hid'] at hsecond
        have hfound' := getUserByUsername_found _ _ hid'
        refine ⟨_, hsecond, ?_⟩
        show AuthManager.verifyPassword c r'' pw2 ((Database.updateUser _ _).2.getUserByUsername
          (resetFields token).1).passwordHash = true
        rw [getUserByUsername_updateUser, if_pos hfound', if_pos rfl]
        exact verifyPassword_fresh_salt c r' r'' pw2

/-- Witness of C17: the token of `alice` issued at time 0 (expiry 3600), used at time 0 and
again at time 10. -/
theorem resetPassword_reusable_witness :
    AuthManager.resetPassword demoCrypto demoRandom (demoServer []).m_authManager 0
      demoResetToken ['n', 'e', 'w', '1'] = Except.ok (true, demoAfterReset)
    ∧ ∃ am2, AuthManager.resetPassword demoCrypto demoRandom demoAfterReset 10 demoResetToken
          ['n', 'e', 'w', '2'] = Except.ok (true, am2)
        ∧ AuthManager.verifyPassword demoCrypto demoRandom ['n', 'e', 'w', '2']
            (am2.m_db.getUserByUsername (resetFields demoResetToken).1).passwordHash = true :=
  ⟨by decide,
    resetPassword_reusable demoCrypto demoRandom demoRandom demoRandom
      (demoServer []).m_authManager demoAfterReset 0 10 3600 demoResetToken
      ['n', 'e', 'w', '1'] ['n', 'e', 'w', '2'] (by decide) (by decide) (by decide)⟩

/-- C17 (counterexample): the reset token of `alice` changes her password at time 0, and the
same token changes it again at time 10: the second call returns true and the stored hash is no
longer the one the first call stored. -/
theorem resetPassword_reusable_counterexample :
    AuthManager.resetPassword demoCrypto demoRandom (demoServer []).m_authManager 0
      demoResetToken ['n', 'e', 'w', '1'] = Except.ok (true, demoAfterReset)
    ∧ (AuthManager.resetPassword demoCrypto demoRandom demoAfterReset 10 demoResetToken
        ['n', 'e', 'w', '2']).map (fun out => out.1) = Except.ok true
    ∧ (AuthManager.resetPassword demoCrypto demoRandom demoAfterReset 10 demoResetToken
        ['n', 'e', 'w', '2']).map
          (fun out => (out.2.m_db.getUserByUsername ['a', 'l', 'i', 'c', 'e']).passwordHash)
      ≠ Except.ok (demoAfterReset.m_db.getUserByUsername ['a', 'l', 'i', 'c', 'e']).passwordHash := by
  decide

/-- C18 (the code at the failing input): on the malformed token `a|x|c` the call
`std::stoll("x")` inside `validatePasswordResetToken` throws `std::invalid_argument`, which
`resetPassword` does not catch: the call ends with the exception instead of returning false.
This holds for every key, MAC, database, time and new password. -/
theorem resetPassword_throws (c : Crypto) (r : Bytes 16) (am : AuthManager) (now : Int)
    (newPassword : Str) :
    AuthManager.resetPassword c r am now ['a', '|', 'x', '|', 'c'] newPassword
      = Except.error StollError.invalid_argument := by
  have e3 : resetFields ['a', '|', 'x', '|', 'c'] = (['a'], ['x'], ['c']) := by decide
  have s1 : stoll ['x'] = Except.error StollError.invalid_argument := by decide
  have hv : AuthManager.validatePasswordResetToken c am now ['a', '|', 'x', '|', 'c']
      = Except.error StollError.invalid_argument := by
    rw [validatePasswordResetToken_eq, e3]; simp [s1]
  rw [resetPassword_eq, hv]

theorem getUserByUsername_mem (db : Database) (v : Str)
    (h : (db.getUserByUsername v).id ≠ 0) : db.getUserByUsername v ∈ db.users := by
  unfold Database.getUserByUsername at h ⊢
  cases hfind : db.users.find? (fun u => u.username = v) with
  | none => rw [hfind] at h; exact absurd rfl h
  | some u => exact List.mem_of_find?_eq_some hfind

/-- The rest of C18, for the calls that return: when `resetPassword` returns false the manager
(key, accounts, audit log) is unchanged; when it returns true, and the ids of the accounts are
pairwise distinct (`id` is the primary key), the key and the audit log are unchanged and the
`users` table differs only in the password hash of the account named in the token, which now
verifies against the new password. -/
theorem resetPassword_frame (c : Crypto) (r r' : Bytes 16) (am am' : AuthManager) (now : Int)
    (token newPassword : Str) (result : Bool)
    (h : AuthManager.resetPassword c r am now token newPassword = Except.ok (result, am'))
    (hids : (am.m_db.users.map (·.id)).Nodup) :
    (result = false → am' = am)
    ∧ (result = true →
        am'.m_secretKey = am.m_secretKey ∧ am'.m_db.logs = am.m_db.logs
        ∧ am'.m_db.users = am.m_db.users.map (fun u =>
            if u.id = (am.m_db.getUserByUsername (resetFields token).1).id then
              { u with passwordHash := AuthManager.hashPassword c r newPassword [] }
            else u)
        ∧ AuthManager.verifyPassword c r' newPassword
            (AuthManager.hashPassword c r newPassword []) = true) := by
  rw [resetPassword_eq] at h
  cases hv : AuthManager.validatePasswordResetToken c am now token with
  | error e => rw [hv] at h; exact Except.noConfusion h
  | ok valid =>
    rw [hv] at h
    cases valid with
    | false =>
      simp only [if_true, Except.ok.injEq, Prod.mk.injEq] at h
      obtain ⟨h1, h2⟩ := h
      subst h1 h2
      simp
    | true =>
      by_cases hid : (am.m_db.getUserByUsername (resetFields token).1).id = 0
      · simp only [Bool.true_eq_false, if_false, hid, if_true, Except.ok.injEq,
          Prod.mk.injEq] at h
        obtain ⟨h1, h2⟩ := h
        subst h1 h2
        simp
      · simp only [Bool.true_eq_false, if_false, hid, Except.ok.injEq, Prod.mk.injEq] at h
        obtain ⟨h1, h2⟩ := h
        subst h1 h2
        refine ⟨by simp, fun _ => ⟨rfl, rfl, ?_, verifyPassword_fresh_salt c r r' newPassword⟩⟩
        show (am.m_db.updateUser _).2.users = _
        rw [updateUser_users]
        apply List.map_congr_left
        intro u hu
        by_cases hx : u.id = (am.m_db.getUserByUsername (resetFields token).1).id
        · have hu' : u = am.m_db.getUserByUsername (resetFields token).1 :=
            List.inj_on_of_nodup_map hids hu (getUserByUsername_mem _ _ hid) hx
          simp only [hx, if_true]
          rw [← hu']
        · simp only [hx, if_false]

theorem generatePasswordResetToken_eq (c : Crypto) (am : AuthManager) (now : Int) (u : Str) :
    AuthManager.generatePasswordResetToken c am now u =
      join3 u (decimal (now + 3600)) (AuthManager.signData c am (join2 u (decimal (now + 3600)))) := by
  simp [AuthManager.generatePasswordResetToken, join3, join2]

theorem getUserByEmail_mem (db : Database) (v : Str)
    (h : (db.getUserByEmail v).id ≠ 0) : db.getUserByEmail v ∈ db.users := by
  unfold Database.getUserByEmail at h ⊢
  cases hfind : db.users.find? (fun u => u.email = v) with
  | none => rw [hfind] at h; exact absurd rfl h
  | some u => exact List.mem_of_find?_eq_some hfind

/-- With pairwise distinct usernames, an account of the table is the one found under its name. -/
theorem getUserByUsername_of_mem (db : Database) (u : UserData) (hu : u ∈ db.users)
    (huniq : (db.users.map (·.username)).Nodup) : db.getUserByUsername u.username = u := by
  have key : ∀ l : List UserData, u ∈ l → (l.map (·.username)).Nodup →
      l.find? (fun x => x.username = u.username) = some u := by
    intro l
    induction l with
    | nil => intro h; cases h
    | cons x xs ih =>
      intro hmem hnd
      rw [List.map_cons, List.nodup_cons] at hnd
      by_cases hx : x.username = u.username
      · have hux : u = x := by
          rcases List.mem_cons.mp hmem with h | h
          · exact h
          · exact absurd (List.mem_map.mpr ⟨u, h, hx.symm⟩) hnd.1
        subst hux
        simp
      · have hux : u ∈ xs := by
          rcases List.mem_cons.mp hmem with h | h
          · exact absurd (h ▸ rfl) hx
          · exact h
        simp only [List.find?_cons, hx, decide_False]
        exact ih hux hnd.2
  unfold Database.getUserByUsername
  rw [key db.users hu huniq]

/-- Which passwords verify against a hash made with a freshly generated salt: those with the
same hex digest under that salt. -/
theorem verifyPassword_fresh_salt_iff (c : Crypto) (r r' : Bytes 16) (p q : Str) :
    AuthManager.verifyPassword c r' p (AuthManager.hashPassword c r q []) = true ↔
      hexEncode (c.PKCS5_PBKDF2_HMAC p (AuthManager.generateSalt r) 10000)
        = hexEncode (c.PKCS5_PBKDF2_HMAC q (AuthManager.generateSalt r) 10000) := by
  obtain ⟨salt, hsalt, hused, hne, hdollar⟩ := hashPassword_shape c r q [] (by simp)
  have hs : salt = AuthManager.generateSalt r := by simpa using hused
  rw [hsalt, ← hs]
  simp [AuthManager.verifyPassword, find_append_cons _ _ _ hdollar, substr0,
    AuthManager.hashPassword, isEmpty_eq_false hne]

/-- C16 (as amended): password reset end to end. Take an account found under its e-mail address
whose username is non-empty and has no `|`, in a table with pairwise distinct usernames (the
column is `UNIQUE`), and times within the 64-bit range. The server's `resetPassword(email)`
returns true and produces a token; that token, passed with a new password to
`AuthManager::resetPassword` at any time `now'` not after its expiry `now + 3600`, makes
`resetPassword` succeed. Afterwards the stored hash of the account is a fresh hash of the new
password: it verifies against the new password, and against another password (the old one
included) exactly when that password has the same hex digest as the new one under the new
salt. -/
theorem resetPassword_end_to_end (c : Crypto) (r r' : Bytes 16) (s : AuthServer)
    (now now' : Int) (email newPassword : Str)
    (hfound : (s.m_database.getUserByEmail email).id ≠ 0)
    (huniq : (s.m_database.users.map (·.username)).Nodup)
    (hne : (s.m_database.getUserByEmail email).username ≠ [])
    (hbar : '|' ∉ (s.m_database.getUserByEmail email).username)
    (hlo : -(2 : Int) ^ 63 ≤ now) (hhi : now + 3600 < (2 : Int) ^ 63)
    (hnow' : now' ≤ now + 3600) :
    ∃ token am',
      AuthServer.resetPassword c s now email = (true, some token)
      ∧ AuthManager.resetPassword c r s.m_authManager now' token newPassword
          = Except.ok (true, am')
      ∧ (am'.m_db.getUserByUsername (s.m_database.getUserByEmail email).username).passwordHash
          = AuthManager.hashPassword c r newPassword []
      ∧ AuthManager.verifyPassword c r' newPassword
          (am'.m_db.getUserByUsername (s.m_database.getUserByEmail email).username).passwordHash
          = true
      ∧ ∀ p : Str,
          AuthManager.verifyPassword c r' p
            (am'.m_db.getUserByUsername (s.m_database.getUserByEmail email).username).passwordHash
            = true ↔
          hexEncode (c.PKCS5_PBKDF2_HMAC p (AuthManager.generateSalt r) 10000)
            = hexEncode (c.PKCS5_PBKDF2_HMAC newPassword (AuthManager.generateSalt r) 10000) := by
  have hdb : s.m_database = s.m_authManager.m_db := rfl
  rw [hdb] at hfound huniq hne hbar ⊢
  generalize hname : (s.m_authManager.m_db.getUserByEmail email).username = name at hne hbar ⊢
  have hself : s.m_authManager.m_db.getUserByUsername name
      = s.m_authManager.m_db.getUserByEmail email := by
    rw [← hname]
    exact getUserByUsername_of_mem _ _ (getUserByEmail_mem _ _ hfound) huniq
  have hid : (s.m_authManager.m_db.getUserByUsername name).id ≠ 0 := by rw [hself]; exact hfound
  have htok : AuthManager.generateResetToken c s.m_authManager now email
      = join3 name (decimal (now + 3600))
          (AuthManager.signData c s.m_authManager (join2 name (decimal (now + 3600)))) := by
    unfold AuthManager.generateResetToken
    rw [hname, generatePasswordResetToken_eq]
  have hf := resetFields_join3 name (decimal (now + 3600))
    (AuthManager.signData c s.m_authManager (join2 name (decimal (now + 3600)))) hbar
    (decimal_no_bar _) (signData_no_bar _ _ _)
  have hst := stoll_decimal (now + 3600) (by omega) hhi
  have hv : AuthManager.validatePasswordResetToken c s.m_authManager now'
      (join3 name (decimal (now + 3600))
        (AuthManager.signData c s.m_authManager (join2 name (decimal (now + 3600)))))
      = Except.ok true := by
    refine (validatePasswordResetToken_accept_iff c s.m_authManager now' _).mpr ?_
    rw [hf]
    exact ⟨⟨hne, decimal_ne_nil _, signData_ne_nil _ _ _⟩, ⟨now + 3600, hst, hnow'⟩, rfl⟩
  have hreset := resetPassword_eq c r s.m_authManager now'
    (join3 name (decimal (now + 3600))
      (AuthManager.signData c s.m_authManager (join2 name (decimal (now + 3600))))) newPassword
  rw [hv, hf] at hreset
  simp only [Bool.true_eq_false, if_false, hid] at hreset
  have hstored : ((s.m_authManager.m_db.updateUser
      { s.m_authManager.m_db.getUserByUsername name with
        passwordHash := AuthManager.hashPassword c r newPassword [] }).2.getUserByUsername
        name).passwordHash = AuthManager.hashPassword c r newPassword [] := by
    rw [getUserByUsername_updateUser, if_pos (getUserByUsername_found _ _ hid), if_pos rfl]
  refine ⟨_, _, ?_, hreset, hstored, ?_, ?_⟩
  · simp [AuthServer.resetPassword, hdb, hfound, htok]
  · show AuthManager.verifyPassword c r' newPassword ((Database.updateUser _ _).2.getUserByUsername
      name).passwordHash = true
    rw [hstored]
    exact verifyPassword_fresh_salt c r r' newPassword
  · intro p
    show AuthManager.verifyPassword c r' p ((Database.updateUser _ _).2.getUserByUsername
      name).passwordHash = true ↔ _
    rw [hstored]
    exact verifyPassword_fresh_salt_iff c r r' p newPassword

/-- Witness of C16: `alice` (e-mail `a@x.com`) asks for a reset at time 0 and uses the token at
time 10 with the new password `new1`; the old password `pw1` no longer verifies. -/
theorem resetPassword_end_to_end_witness :
    ∃ token am',
      AuthServer.resetPassword demoCrypto (demoServer []) 0 ['a', '@', 'x', '.', 'c', 'o', 'm']
        = (true, some token)
      ∧ AuthManager.resetPassword demoCrypto demoRandom (demoServer []).m_authManager 10 token
          ['n', 'e', 'w', '1'] = Except.ok (true, am')
      ∧ AuthManager.verifyPassword demoCrypto demoRandom ['n', 'e', 'w', '1']
          (am'.m_db.getUserByUsername ['a', 'l', 'i', 'c', 'e']).passwordHash = true
      ∧ AuthManager.verifyPassword demoCrypto demoRandom ['p', 'w', '1']
          (am'.m_db.getUserByUsername ['a', 'l', 'i', 'c', 'e']).passwordHash = false := by
  obtain ⟨token, am', h1, h2, _, h4, h5⟩ :=
    resetPassword_end_to_end demoCrypto demoRandom demoRandom (demoServer []) 0 10
      ['a', '@', 'x', '.', 'c', 'o', 'm'] ['n', 'e', 'w', '1'] (by decide) (by decide)
      (by decide) (by decide) (by decide) (by decide) (by decide)
  refine ⟨token, am', h1, h2, h4, ?_⟩
  have hold := (h5 ['p', 'w', '1']).not
  rw [Bool.not_eq_true] at hold
  exact hold.mpr (by decide)

/-- C16 (counterexample): three resets that do not end as the claim says. The account named
`a|5` asks for a reset at time 0: the server returns true and the token `a|5|3600|sig`, which
`AuthManager::resetPassword` reads as the username `a`, the expiry `5` and the signature `3600`,
and rejects; the stored hash is unchanged. The same happens to the account with the empty
username, whose token starts with `|`. And `alice`, who resets her password to `pw1`, the
password she had, succeeds, after which the old password verifies against the stored hash. -/
theorem resetPassword_end_to_end_counterexample :
    AuthServer.resetPassword demoCrypto demoServerOdd 0 ['c', '@', 'x', '.', 'c', 'o', 'm']
      = (true, some (AuthManager.generateResetToken demoCrypto demoServerOdd.m_authManager 0
          ['c', '@', 'x', '.', 'c', 'o', 'm']))
    ∧ AuthManager.resetPassword demoCrypto demoRandom demoServerOdd.m_authManager 0
        (AuthManager.generateResetToken demoCrypto demoServerOdd.m_authManager 0
          ['c', '@', 'x', '.', 'c', 'o', 'm']) ['n', 'e', 'w', '1']
      = Except.ok (false, demoServerOdd.m_authManager)
    ∧ AuthServer.resetPassword demoCrypto demoServerOdd 0 ['d', '@', 'x', '.', 'c', 'o', 'm']
      = (true, some (AuthManager.generateResetToken demoCrypto demoServerOdd.m_authManager 0
          ['d', '@', 'x', '.', 'c', 'o', 'm']))
    ∧ AuthManager.resetPassword demoCrypto demoRandom demoServerOdd.m_authManager 0
        (AuthManager.generateResetToken demoCrypto demoServerOdd.m_authManager 0
          ['d', '@', 'x', '.', 'c', 'o', 'm']) ['n', 'e', 'w', '1']
      = Except.ok (false, demoServerOdd.m_authManager)
    ∧ (AuthManager.resetPassword demoCrypto demoRandom (demoServer []).m_authManager 0
        (AuthManager.generateResetToken demoCrypto (demoServer []).m_authManager 0
          ['a', '@', 'x', '.', 'c', 'o', 'm']) ['p', 'w', '1']).map
          (fun out => (out.1, AuthManager.verifyPassword demoCrypto demoRandom ['p', 'w', '1']
            (out.2.m_db.getUserByUsername ['a', 'l', 'i', 'c', 'e']).passwordHash))
      = Except.ok (true, true) := by
  decide

/-! ## C19: the hwid lock of a license key -/

/-- C19: `isHWIDLocked(key, hwid)` is true if and only if the hwid stored for the key
(`getKeyHWID(key)`) is non-empty and different from `hwid`. With an empty stored hwid the key is
not locked whatever is presented; with equal non-empty stored and presented hwids it is not
locked; with a non-empty stored hwid that differs from the presented one it is locked. -/
theorem isHWIDLocked_iff (key hwid : Str) :
    (isHWIDLocked key hwid = true ↔ getKeyHWID key ≠ [] ∧ getKeyHWID key ≠ hwid)
    ∧ (getKeyHWID key = [] → isHWIDLocked key hwid = false)
    ∧ (getKeyHWID key ≠ [] → getKeyHWID key = hwid → isHWIDLocked key hwid = false)
    ∧ (getKeyHWID key ≠ [] → getKeyHWID key ≠ hwid → isHWIDLocked key hwid = true) := by
  unfold isHWIDLocked
  by_cases h1 : getKeyHWID key = []
  · simp [h1]
  · by_cases h2 : getKeyHWID key = hwid
    · have h1' : ¬ hwid = [] := h2 ▸ h1
      simp [h2, h1', isEmpty_eq_false]
    · simp [h1, h2, isEmpty_eq_false]

/-- Witness of C19 with the mock store: `KEYB` has no hwid and is not locked; `KEYA` has the
hwid `HWID-12345`, is not locked for it and is locked for `HW1`. -/
theorem isHWIDLocked_iff_witness :
    isHWIDLocked ['K', 'E', 'Y', 'B'] ['H', 'W', '1'] = false
    ∧ isHWIDLocked ['K', 'E', 'Y', 'A'] ['H', 'W', 'I', 'D', '-', '1', '2', '3', '4', '5'] = false
    ∧ isHWIDLocked ['K', 'E', 'Y', 'A'] ['H', 'W', '1'] = true :=
  ⟨(isHWIDLocked_iff ['K', 'E', 'Y', 'B'] ['H', 'W', '1']).2.1 (by decide),
    (isHWIDLocked_iff ['K', 'E', 'Y', 'A']
      ['H', 'W', 'I', 'D', '-', '1', '2', '3', '4', '5']).2.2.1 (by decide) (by decide),
    (isHWIDLocked_iff ['K', 'E', 'Y', 'A'] ['H', 'W', '1']).2.2.2 (by decide) (by decide)⟩

/-! ## C20: the format of generated license keys -/

theorem licenseKeyChars_isKeyChar :
    ∀ k : Fin 36, isKeyChar (licenseKeyChars.getD k.val 'A') = true := by
  decide

/-- The 19 characters `generateRandomKey` produces. -/
theorem generateRandomKey_eq (draws : Fin 16 → Fin 36) :
    generateRandomKey draws =
      [licenseKeyChars.getD (draws 0).val 'A', licenseKeyChars.getD (draws 1).val 'A',
       licenseKeyChars.getD (draws 2).val 'A', licenseKeyChars.getD (draws 3).val 'A', '-',
       licenseKeyChars.getD (draws 4).val 'A', licenseKeyChars.getD (draws 5).val 'A',
       licenseKeyChars.getD (draws 6).val 'A', licenseKeyChars.getD (draws 7).val 'A', '-',
       licenseKeyChars.getD (draws 8).val 'A', licenseKeyChars.getD (draws 9).val 'A',
       licenseKeyChars.getD (draws 10).val 'A', licenseKeyChars.getD (draws 11).val 'A', '-',
       licenseKeyChars.getD (draws 12).val 'A', licenseKeyChars.getD (draws 13).val 'A',
       licenseKeyChars.getD (draws 14).val 'A', licenseKeyChars.getD (draws 15).val 'A'] := by
  rfl

theorem generateRandomKey_format (draws : Fin 16 → Fin 36) :
    hasKeyFormat (generateRandomKey draws) := by
  rw [generateRandomKey_eq]
  refine ⟨rfl, ?_⟩
  intro i hi
  have hk : ∀ k : Fin 36, isKeyChar (licenseKeyChars[k.val]?.getD 'A') = true := by
    simpa using licenseKeyChars_isKeyChar
  interval_cases i <;> simp [hk]

theorem foldl_push (f : Nat → Str) (l : List Nat) (acc : List Str) :
    l.foldl (fun keys i => keys ++ [f i]) acc = acc ++ l.map f := by
  induction l generalizing acc with
  | nil => simp
  | cons x xs ih => simp [ih]

/-- C20: for every non-negative quantity `N` and every outcome of the random draws,
`generateLicenseKeys` returns exactly `N` codes, each of length 19 in the format
`XXXX-XXXX-XXXX-XXXX`: a `-` at positions 4, 9 and 14 and a character from `A`-`Z` or `0`-`9`
at each of the other 16 positions. -/
theorem generateLicenseKeys_format (draws : Nat → Fin 16 → Fin 36) (game duration : Str)
    (N : Int) (hN : 0 ≤ N) :
    ((AuthServer.generateLicenseKeys draws game duration N).length : Int) = N
    ∧ ∀ key ∈ AuthServer.generateLicenseKeys draws game duration N, hasKeyFormat key := by
  unfold AuthServer.generateLicenseKeys
  rw [foldl_push (fun i => generateRandomKey (draws i))]
  constructor
  · simp [Int.toNat_of_nonneg hN]
  · intro key hkey
    simp only [List.nil_append, List.mem_map] at hkey
    obtain ⟨i, _, rfl⟩ := hkey
    exact generateRandomKey_format (draws i)

/-- Witness of C20: three keys. -/
theorem generateLicenseKeys_format_witness :
    ((AuthServer.generateLicenseKeys demoDraws ['r', 'u', 's', 't'] ['3', '0', 'd'] 3).length
      : Int) = 3
    ∧ ∀ key ∈ AuthServer.generateLicenseKeys demoDraws ['r', 'u', 's', 't'] ['3', '0', 'd'] 3,
        hasKeyFormat key :=
  generateLicenseKeys_format demoDraws ['r', 'u', 's', 't'] ['3', '0', 'd'] 3 (by decide)

/-! ## C21: distinctness of generated license keys -/

theorem licenseKeyChars_injective :
    ∀ a b : Fin 36, licenseKeyChars.getD a.val 'A' = licenseKeyChars.getD b.val 'A' → a = b := by
  decide

/-- Two calls of `generateRandomKey` give the same code exactly when all 16 draws agree. -/
theorem generateRandomKey_injective (d d' : Fin 16 → Fin 36)
    (h : generateRandomKey d = generateRandomKey d') : d = d' := by
  rw [generateRandomKey_eq, generateRandomKey_eq] at h
  simp only [List.cons.injEq, and_true, true_and] at h
  obtain ⟨h0, h1, h2, h3, h4, h5, h6, h7, h8, h9, h10, h11, h12, h13, h14, h15⟩ := h
  have inj := licenseKeyChars_injective
  funext k
  fin_cases k
  · exact inj _ _ h0
  · exact inj _ _ h1
  · exact inj _ _ h2
  · exact inj _ _ h3
  · exact inj _ _ h4
  · exact inj _ _ h5
  · exact inj _ _ h6
  · exact inj _ _ h7
  · exact inj _ _ h8
  · exact inj _ _ h9
  · exact inj _ _ h10
  · exact inj _ _ h11
  · exact inj _ _ h12
  · exact inj _ _ h13
  · exact inj _ _ h14
  · exact inj _ _ h15

/-- C21 (as amended): `generateLicenseKeys` accepts every candidate code as it comes, without a
uniqueness check; the codes of one call are pairwise distinct exactly when the random draws of
its calls of `generateRandomKey` are pairwise distinct. -/
theorem generateLicenseKeys_nodup_iff (draws : Nat → Fin 16 → Fin 36) (game duration : Str)
    (N : Int) :
    (AuthServer.generateLicenseKeys draws game duration N).Nodup ↔
      ∀ i j : Nat, i < N.toNat → j < N.toNat → draws i = draws j → i = j := by
  unfold AuthServer.generateLicenseKeys
  rw [foldl_push (fun i => generateRandomKey (draws i)), List.nil_append,
    List.nodup_map_iff_inj_on (List.nodup_range _)]
  constructor
  · intro h i j hi hj hd
    exact h i (List.mem_range.mpr hi) j (List.mem_range.mpr hj) (by rw [hd])
  · intro h i hi j hj hk
    exact h i j (List.mem_range.mp hi) (List.mem_range.mp hj) (generateRandomKey_injective _ _ hk)

/-- Witness of C21: three calls with pairwise distinct draws. -/
theorem generateLicenseKeys_nodup_iff_witness :
    (AuthServer.generateLicenseKeys demoDraws ['r', 'u', 's', 't'] ['3', '0', 'd'] 3).Nodup :=
  (generateLicenseKeys_nodup_iff demoDraws ['r', 'u', 's', 't'] ['3', '0', 'd'] 3).mpr
    (by
      intro i j hi hj h
      have h0 := congrArg (fun f => (f 0).val) h
      have hi' : i < 3 := hi
      have hj' : j < 3 := hj
      simp only [demoDraws, Fin.val_zero, Nat.mul_zero, Nat.add_zero] at h0
      omega)

/-- C21 (counterexample): when the draws of the two calls coincide (here all draws are 0),
`generateLicenseKeys` returns the code `AAAA-AAAA-AAAA-AAAA` twice. -/
theorem generateLicenseKeys_nodup_iff_counterexample :
    AuthServer.generateLicenseKeys (fun _ _ => 0) ['r', 'u', 's', 't'] ['3', '0', 'd'] 2
      = ["AAAA-AAAA-AAAA-AAAA".toList, "AAAA-AAAA-AAAA-AAAA".toList]
    ∧ ¬ (AuthServer.generateLicenseKeys (fun _ _ => 0) ['r', 'u', 's', 't'] ['3', '0', 'd']
          2).Nodup := by
  decide

/-! ## C22: activation of a banned key -/

/-- C22 (as amended): `banKey` and `activateLicenseKey` are placeholders that keep no key state
and return true for every input: `activateLicenseKey` reports success for every key, username
and hwid, also for a key `banKey` has been called on. -/
theorem activateLicenseKey_after_banKey (s : AuthServer) (key reason username hwid : Str) :
    s.banKey key reason = true ∧ s.activateLicenseKey key username hwid = true :=
  ⟨rfl, rfl⟩

/-- C22 (counterexample): the key `AAAA-AAAA-AAAA-AAAA` is banned with `banKey`, and its
activation for `alice` on `HW1` reports success. -/
theorem activateLicenseKey_after_banKey_counterexample :
    (demoServer []).banKey "AAAA-AAAA-AAAA-AAAA".toList ['f', 'r', 'a', 'u', 'd'] = true
    ∧ (demoServer []).activateLicenseKey "AAAA-AAAA-AAAA-AAAA".toList
        ['a', 'l', 'i', 'c', 'e'] ['H', 'W', '1'] = true := by
  decide

/-! ## C23 and C24: the stored hash format and the token wire format -/

/-- C23 (as amended): for every password and every salt that does not contain `$`,
`hashPassword` returns the salt used, then a single `$`, then exactly 64 lower-case hexadecimal
characters (the hex of the 32-byte digest of the key derivation with 10000 iterations), and `$`
occurs in neither the salt part nor the digest part; when the salt argument is empty the salt
used is the 32-character lower-case hex string of the 16 random bytes. -/
theorem hashPassword_format (c : Crypto) (r : Bytes 16) (password salt : Str)
    (hsalt : '$' ∉ salt) :
    AuthManager.hashPassword c r password salt
      = (if salt.isEmpty then AuthManager.generateSalt r else salt) ++ ['$']
        ++ hexEncode (c.PKCS5_PBKDF2_HMAC password
            (if salt.isEmpty then AuthManager.generateSalt r else salt) 10000)
    ∧ (hexEncode (c.PKCS5_PBKDF2_HMAC password
            (if salt.isEmpty then AuthManager.generateSalt r else salt) 10000)).length = 64
    ∧ (hexEncode (c.PKCS5_PBKDF2_HMAC password
            (if salt.isEmpty then AuthManager.generateSalt r else salt) 10000)).all isLowerHex
        = true
    ∧ '$' ∉ (if salt.isEmpty then AuthManager.generateSalt r else salt)
    ∧ '$' ∉ hexEncode (c.PKCS5_PBKDF2_HMAC password
            (if salt.isEmpty then AuthManager.generateSalt r else salt) 10000)
    ∧ (salt = [] →
        (AuthManager.generateSalt r).length = 32
        ∧ (AuthManager.generateSalt r).all isLowerHex = true) := by
  refine ⟨rfl, hexEncode_length _, ?_, ?_, hexEncode_not_mem _ '$' (by decide), ?_⟩
  · rw [List.all_eq_true]
    exact hexEncode_isLowerHex _
  · by_cases he : salt = []
    · simp only [he, List.isEmpty_nil, if_true]
      exact hexEncode_not_mem _ '$' (by decide)
    · simp only [isEmpty_eq_false he, Bool.false_eq_true, if_false]
      exact hsalt
  · intro _
    refine ⟨hexEncode_length _, ?_⟩
    rw [List.all_eq_true]
    exact hexEncode_isLowerHex _

/-- Witness of C23: the password `pw` with the empty salt. -/
theorem hashPassword_format_witness :
    AuthManager.hashPassword demoCrypto demoRandom ['p', 'w'] []
      = "00112233445566778899aabbccddeeff".toList ++ ['$']
        ++ hexEncode (demoCrypto.PKCS5_PBKDF2_HMAC ['p', 'w']
            "00112233445566778899aabbccddeeff".toList 10000)
    ∧ '$' ∉ (if ([] : Str).isEmpty then AuthManager.generateSalt demoRandom else []) :=
  ⟨by decide, (hashPassword_format demoCrypto demoRandom ['p', 'w'] [] (by decide)).2.2.2.1⟩

/-- C23 (counterexample): with the salt `a$b`, which `hashPassword` uses as it is, the stored
hash is `a$b$<digest>`: the delimiter occurs in the salt part. -/
theorem hashPassword_format_counterexample :
    AuthManager.hashPassword demoCrypto demoRandom ['p', 'w'] ['a', '$', 'b']
      = ['a', '$', 'b'] ++ ['$']
        ++ hexEncode (demoCrypto.PKCS5_PBKDF2_HMAC ['p', 'w'] ['a', '$', 'b'] 10000)
    ∧ '$' ∈ ['a', '$', 'b'] := by
  decide

/-- C24: the token wire format. `generateToken(u, h)` at time `t` is `u`, `|`, `h`, `|`, the
decimal rendering of `t + 86400`, `|`, `sig` with `sig` the result of `signData` on
`u|h|(t + 86400)`; `generatePasswordResetToken(u)` at time `t` is `u`, `|`, the decimal rendering
of `t + 3600`, `|`, `sig` with `sig` over `u|(t + 3600)`; in both `sig` is 64 lower-case
hexadecimal characters. -/
theorem token_wire_format (c : Crypto) (am : AuthManager) (t : Int) (u h : Str) :
    (AuthManager.generateToken c am t u h
        = u ++ ['|'] ++ h ++ ['|'] ++ decimal (t + 86400) ++ ['|']
          ++ AuthManager.signData c am (u ++ ['|'] ++ h ++ ['|'] ++ decimal (t + 86400))
      ∧ (AuthManager.signData c am (u ++ ['|'] ++ h ++ ['|'] ++ decimal (t + 86400))).length = 64
      ∧ (AuthManager.signData c am (u ++ ['|'] ++ h ++ ['|'] ++ decimal (t + 86400))).all
          isLowerHex = true)
    ∧ (AuthManager.generatePasswordResetToken c am t u
        = u ++ ['|'] ++ decimal (t + 3600) ++ ['|']
          ++ AuthManager.signData c am (u ++ ['|'] ++ decimal (t + 3600))
      ∧ (AuthManager.signData c am (u ++ ['|'] ++ decimal (t + 3600))).length = 64
      ∧ (AuthManager.signData c am (u ++ ['|'] ++ decimal (t + 3600))).all isLowerHex = true) := by
  refine ⟨⟨rfl, signData_length _ _ _, ?_⟩, ⟨rfl, signData_length _ _ _, ?_⟩⟩
  · rw [List.all_eq_true]
    exact hexEncode_isLowerHex _
  · rw [List.all_eq_true]
    exact hexEncode_isLowerHex _

/-- Witness of C24: the tokens of `alice` on `HW1` issued at time 0, character by character. -/
theorem token_wire_format_witness :
    AuthManager.generateToken demoCrypto demoAuth 0 ['a', 'l', 'i', 'c', 'e'] ['H', 'W', '1']
      = ("alice|HW1|86400|"
          ++ "333435363738393a3b3c3d3e3f404142434445464748494a4b4c4d4e4f505152").toList
    ∧ AuthManager.generatePasswordResetToken demoCrypto demoAuth 0 ['a', 'l', 'i', 'c', 'e']
      = ("alice|3600|"
          ++ "aeafb0b1b2b3b4b5b6b7b8b9babbbcbdbebfc0c1c2c3c4c5c6c7c8c9cacbcccd").toList :=
  ⟨(token_wire_format demoCrypto demoAuth 0 ['a', 'l', 'i', 'c', 'e'] ['H', 'W', '1']).1.1.trans
      (by decide),
    (token_wire_format demoCrypto demoAuth 0 ['a', 'l', 'i', 'c', 'e'] ['H', 'W', '1']).2.1.trans
      (by decide)⟩

/-! ## C25: session tokens and reset tokens -/

theorem sessionFields_join3 (u e s : Str) (hu : '|' ∉ u) (he : '|' ∉ e) (hs : '|' ∉ s) :
    sessionFields (join3 u e s) = (u, e, s, []) := by
  simp [sessionFields, join3, getline, splitDelim_append_cons, splitDelim_of_not_mem, hu, he, hs]

theorem resetFields_join4 (u h e s : Str) (hu : '|' ∉ u) (hh : '|' ∉ h) (he : '|' ∉ e) :
    resetFields (join4 u h e s) = (u, h, e) := by
  simp [resetFields, join4, getline, splitDelim_append_cons, hu, hh, he]

theorem decimalAux_length_le (fuel n k : Nat) (h : n < 10 ^ (k + 1)) :
    (decimalAux fuel n []).length ≤ k + 1 := by
  induction fuel generalizing n k with
  | zero => simp [decimalAux]
  | succ f ih =>
    simp only [decimalAux]
    split
    · simp
    · rename_i h0
      rw [decimalAux_append]
      simp only [List.length_append, List.length_singleton]
      cases k with
      | zero => omega
      | succ k' =>
        have : n / 10 < 10 ^ (k' + 1) := by
          rw [Nat.div_lt_iff_lt_mul (by decide)]
          calc n < 10 ^ (k' + 1 + 1) := h
            _ = 10 ^ (k' + 1) * 10 := by ring
        have := ih (n / 10) k' this
        omega

/-- The decimal rendering of a 64-bit `time_t` is never a hex digest of 32 bytes: it starts with
`-` or has at most 19 characters. -/
theorem decimal_ne_hexEncode (x : Int) (hlo : -(2 : Int) ^ 63 ≤ x) (hhi : x < (2 : Int) ^ 63)
    (buf : Bytes 32) : decimal x ≠ hexEncode buf := by
  intro heq
  unfold decimal at heq
  split at heq
  · have : '-' ∈ hexEncode buf := by rw [← heq]; simp
    exact hexEncode_not_mem buf '-' (by decide) this
  · have hlen := congrArg List.length heq
    rw [hexEncode_length] at hlen
    have hb : x.natAbs < 10 ^ (18 + 1) := by omega
    have := decimalAux_length_le (x.natAbs + 1) x.natAbs 18 hb
    unfold decimalNat at hlen
    omega

/-- C25 (as amended): token kinds are not interchangeable as long as the fields contain no `|`.
For every username without `|`, a reset token produced by `generatePasswordResetToken` makes
`validateToken` return false (its fourth field is missing), under any key and account state; for
every username and hwid without `|`, a session token produced by `generateToken` (at a 64-bit
time) is never accepted by `validatePasswordResetToken`. -/
theorem token_kinds_separate (c : Crypto) (am am' : AuthManager) (now t : Int) (u h : Str)
    (hu : '|' ∉ u) (hh : '|' ∉ h) (hlo : -(2 : Int) ^ 63 ≤ t) (hhi : t + 86400 < (2 : Int) ^ 63) :
    AuthManager.validateToken c am now (AuthManager.generatePasswordResetToken c am' t u)
      = Except.ok false
    ∧ AuthManager.validatePasswordResetToken c am now (AuthManager.generateToken c am' t u h)
      ≠ Except.ok true := by
  constructor
  · rw [generatePasswordResetToken_eq, validateToken_eq,
      sessionFields_join3 u _ _ hu (decimal_no_bar _) (signData_no_bar _ _ _)]
    simp
  · intro hacc
    have := (validatePasswordResetToken_accept_iff c am now _).mp hacc
    rw [generateToken_eq, resetFields_join4 u h _ _ hu hh (decimal_no_bar _)] at this
    obtain ⟨_, _, hsig⟩ := this
    exact decimal_ne_hexEncode (t + 86400) (by omega) hhi _ hsig

/-- Witness of C25: the tokens of `alice` issued at time 0. -/
theorem token_kinds_separate_witness :
    AuthManager.validateToken demoCrypto demoAuth 0
        (AuthManager.generatePasswordResetToken demoCrypto demoAuth 0 ['a', 'l', 'i', 'c', 'e'])
      = Except.ok false
    ∧ AuthManager.validatePasswordResetToken demoCrypto demoAuth 0
        (AuthManager.generateToken demoCrypto demoAuth 0 ['a', 'l', 'i', 'c', 'e'] ['9', '9'])
      ≠ Except.ok true :=
  token_kinds_separate demoCrypto demoAuth demoAuth 0 0 ['a', 'l', 'i', 'c', 'e'] ['9', '9']
    (by decide) (by decide) (by decide) (by decide)

/-- The reset token for the "username" `u|h` is, character by character, a session token for
the user `u` on the hwid `h` with the reset lifetime: `validateToken` accepts it whenever the
account `u` is in good standing, for every MAC and key. -/
theorem reset_token_as_session_token (c : Crypto) (am : AuthManager) (t : Int) (u h : Str)
    (hu : u ≠ []) (hh : h ≠ []) (hub : '|' ∉ u) (hhb : '|' ∉ h)
    (hexists : (am.m_db.getUserByUsername u).id ≠ 0)
    (hban : (am.m_db.getUserByUsername u).isBanned = false)
    (hhwid : (am.m_db.getUserByUsername u).hwid = [] ∨ (am.m_db.getUserByUsername u).hwid = h)
    (hlo : -(2 : Int) ^ 63 ≤ t) (hhi : t + 3600 < (2 : Int) ^ 63) :
    AuthManager.validateToken c am t (AuthManager.generatePasswordResetToken c am t (join2 u h))
      = Except.ok true := by
  have hf := sessionFields_join4 u h (decimal (t + 3600))
    (AuthManager.signData c am (join3 u h (decimal (t + 3600)))) hub hhb (decimal_no_bar _)
    (signData_no_bar _ _ _)
  have hshape : AuthManager.generatePasswordResetToken c am t (join2 u h)
      = join4 u h (decimal (t + 3600))
          (AuthManager.signData c am (join3 u h (decimal (t + 3600)))) := by
    simp [AuthManager.generatePasswordResetToken, join2, join3, join4]
  rw [hshape]
  refine (validateToken_accept_iff c am t _).mpr ?_
  rw [hf]
  exact ⟨⟨hu, hh, decimal_ne_nil _, signData_ne_nil _ _ _⟩,
    ⟨t + 3600, stoll_decimal _ (by omega) hhi, by omega⟩, rfl, hexists, hban, hhwid⟩

/-- C25 (counterexample): the reset token produced by `generatePasswordResetToken` for the
username `alice|HW1` is accepted by `validateToken` as a session token of `alice` on `HW1`. -/
theorem token_kinds_separate_counterexample :
    AuthManager.validateToken demoCrypto demoAuth 0
      (AuthManager.generatePasswordResetToken demoCrypto demoAuth 0
        ['a', 'l', 'i', 'c', 'e', '|', 'H', 'W', '1'])
      = Except.ok true := by
  decide

/-! ## C26: `updateSubscription` -/

theorem wrapInt32_of_range (x : Int) (hlo : -(2 : Int) ^ 31 ≤ x) (hhi : x < (2 : Int) ^ 31) :
    wrapInt32 x = x := by
  unfold wrapInt32
  norm_num at hlo hhi ⊢
  omega

/-- C26 (the code at the failing input): `alice` has no subscription (`subscriptionEnd = 0`);
at time 1000 `updateSubscription("alice", 24856)` computes `24856 * 86400 = 2147558400` in
`int`, which is above `INT_MAX = 2147483647`; with the wrapped product `-2147408896` the stored
subscription end is `-2147407896`, not `1000 + 2147558400 = 2147559400`. -/
theorem updateSubscription_overflow :
    ((demoServer []).m_database.getUserByUsername ['a', 'l', 'i', 'c', 'e']).subscriptionEnd = 0
    ∧ ((demoServer []).m_database.updateSubscription 1000 ['a', 'l', 'i', 'c', 'e'] 24856).1
        = true
    ∧ (((demoServer []).m_database.updateSubscription 1000 ['a', 'l', 'i', 'c', 'e']
          24856).2.getUserByUsername ['a', 'l', 'i', 'c', 'e']).subscriptionEnd = -2147407896
    ∧ (1000 : Int) + 24856 * 86400 = 2147559400 := by
  decide

/-- The rest of C26, for a number of days whose product with 86400 fits an `int`: an unknown
username gives false and no change; for an existing user the subscription end becomes
`base + days * 86400` with `base` the current time when the old end is earlier than the current
time and the old end otherwise. -/
theorem updateSubscription_exact (db : Database) (now : Int) (username : Str) (days : Int)
    (hlo : -(2 : Int) ^ 31 ≤ days * 86400) (hhi : days * 86400 < (2 : Int) ^ 31) :
    ((db.getUserByUsername username).id = 0 →
      db.updateSubscription now username days = (false, db))
    ∧ ((db.getUserByUsername username).id ≠ 0 →
      (db.updateSubscription now username days).1 = true
      ∧ ((db.updateSubscription now username days).2.getUserByUsername username).subscriptionEnd
        = (if (db.getUserByUsername username).subscriptionEnd < now then now
            else (db.getUserByUsername username).subscriptionEnd) + days * 86400) := by
  constructor
  · intro h0
    simp [Database.updateSubscription, h0]
  · intro h0
    have hfound := getUserByUsername_found db username h0
    simp only [Database.updateSubscription, h0, if_false, wrapInt32_of_range _ hlo hhi, true_and]
    unfold Database.getUserByUsername
    rw [find?_username_map _ _ username (by intro u; split <;> rfl)]
    cases hfind : db.users.find? (fun u => u.username = username) with
    | none => rw [hfind] at hfound; exact absurd hfound (by simp)
    | some u =>
      have huv : u.username = username := by
        have := List.find?_some hfind
        simpa using this
      simp only [Option.map_some', huv, if_true]
      split <;> rfl

/-! ## C27: a failed login leaves the account alone -/

theorem afterLoginWrites_key (s : AuthServer) (now : Int) (username hwid : Str) :
    (s.afterLoginWrites now username hwid).m_authManager.m_secretKey
      = s.m_authManager.m_secretKey := by
  unfold AuthServer.afterLoginWrites
  split <;> rfl

theorem generateToken_key (c : Crypto) (am am' : AuthManager) (now : Int) (u h : Str)
    (hkey : am'.m_secretKey = am.m_secretKey) :
    AuthManager.generateToken c am' now u h = AuthManager.generateToken c am now u h := by
  simp only [AuthManager.generateToken, AuthManager.signData, hkey]

/-- C27: a failed login has no effect on the accounts. On every path where `loginUser` returns
false the `users` table (hence the user's password hash, hwid, last-login timestamp,
subscription end and ban flag) is unchanged and the token output parameter keeps its value; when
it returns true the token is the freshly generated session token and the last-login timestamp
of the account is the time of the call. -/
theorem loginUser_failure_frame (c : Crypto) (r : Bytes 16) (s : AuthServer) (now : Int)
    (username password hwid token : Str) :
    ((AuthServer.loginUser c r s now username password hwid token).1 = false →
      (AuthServer.loginUser c r s now username password hwid token).2.1 = token
      ∧ (AuthServer.loginUser c r s now username password hwid token).2.2.m_database.users
          = s.m_database.users
      ∧ (AuthServer.loginUser c r s now username password hwid
            token).2.2.m_database.getUserByUsername username
          = s.m_database.getUserByUsername username)
    ∧ ((AuthServer.loginUser c r s now username password hwid token).1 = true →
      (AuthServer.loginUser c r s now username password hwid token).2.1
          = AuthManager.generateToken c s.m_authManager now username hwid
      ∧ ((AuthServer.loginUser c r s now username password hwid
            token).2.2.m_database.getUserByUsername username).lastLoginDate = now) := by
  rw [loginUser_eq]
  by_cases hc : AuthServer.loginChecks c r s now username password hwid = true
  · have hid := ((loginChecks_iff c r s now username password hwid).mp hc).1
    have hfound := getUserByUsername_found _ _ hid
    simp only [hc, if_true, Bool.true_eq_false, false_implies, true_implies, true_and]
    refine ⟨generateToken_key c _ _ now username hwid (afterLoginWrites_key s now username hwid),
      ?_⟩
    unfold Database.getUserByUsername
    rw [logAttempt_users, afterLoginWrites_users,
      find?_username_map _ _ username (by intro u; split <;> rfl)]
    cases hfind : s.m_database.users.find? (fun u => u.username = username) with
    | none => rw [hfind] at hfound; exact absurd hfound (by simp)
    | some u =>
      have huv : u.username = username := by
        have := List.find?_some hfind
        simpa using this
      simp only [Option.map_some', huv, if_true]
  · simp only [hc, Bool.false_eq_true, if_false, false_implies, true_implies, and_true, true_and]
    refine ⟨logAttempt_users _ _ _ _ _, ?_⟩
    unfold Database.getUserByUsername
    rw [logAttempt_users]

/-- Witness of C27 at time 1000: `alice` with a wrong password fails, her record and the token
variable (holding `old`) are untouched; with the right password she succeeds and her last-login
timestamp is 1000. -/
theorem loginUser_failure_frame_witness :
    ((AuthServer.loginUser demoCrypto demoRandom (demoServer []) 1000 ['a', 'l', 'i', 'c', 'e']
        ['b', 'a', 'd'] ['H', 'W', '1'] ['o', 'l', 'd']).2.1 = ['o', 'l', 'd']
      ∧ (AuthServer.loginUser demoCrypto demoRandom (demoServer []) 1000
          ['a', 'l', 'i', 'c', 'e'] ['b', 'a', 'd'] ['H', 'W', '1']
          ['o', 'l', 'd']).2.2.m_database.users = (demoServer []).m_database.users
      ∧ (AuthServer.loginUser demoCrypto demoRandom (demoServer []) 1000
          ['a', 'l', 'i', 'c', 'e'] ['b', 'a', 'd'] ['H', 'W', '1']
          ['o', 'l', 'd']).2.2.m_database.getUserByUsername ['a', 'l', 'i', 'c', 'e']
        = (demoServer []).m_database.getUserByUsername ['a', 'l', 'i', 'c', 'e'])
    ∧ ((AuthServer.loginUser demoCrypto demoRandom (demoServer []) 1000
          ['a', 'l', 'i', 'c', 'e'] ['p', 'w', '1'] ['H', 'W', '1'] ['o', 'l', 'd']).2.1
        = AuthManager.generateToken demoCrypto (demoServer []).m_authManager 1000
            ['a', 'l', 'i', 'c', 'e'] ['H', 'W', '1']
      ∧ ((AuthServer.loginUser demoCrypto demoRandom (demoServer []) 1000
          ['a', 'l', 'i', 'c', 'e'] ['p', 'w', '1'] ['H', 'W', '1']
          ['o', 'l', 'd']).2.2.m_database.getUserByUsername
            ['a', 'l', 'i', 'c', 'e']).lastLoginDate = 1000) :=
  ⟨(loginUser_failure_frame demoCrypto demoRandom (demoServer []) 1000 ['a', 'l', 'i', 'c', 'e']
      ['b', 'a', 'd'] ['H', 'W', '1'] ['o', 'l', 'd']).1 (by decide),
    (loginUser_failure_frame demoCrypto demoRandom (demoServer []) 1000 ['a', 'l', 'i', 'c', 'e']
      ['p', 'w', '1'] ['H', 'W', '1'] ['o', 'l', 'd']).2 (by decide)⟩

end AuthSystem
